import Mathlib

/-!
Verification development for the core reconciliation + scoring pipeline of an
SEO analytics server: URL normalization, per-source aggregation, current/previous
period merge, delta computation, opportunity scoring and action-item generation.

The Python floats of the source are modelled by exact numbers: `ℚ` for all raw
metric values and accumulations, and `ℝ` where the code applies `math.log10`.
Dictionaries keyed by normalized URL are modelled as association lists
(`List (String × _)`), typed records replace the per-URL metric dictionaries
(which the source always populates with a fixed field set), and Python `None`
becomes `Option`.  `round(x, n)` is modelled as rounding to the nearest multiple
of `10 ^ (-n)` (ties at exact half-cents are immaterial to every statement
below).
-/

/-! ## String-level model of the URL toolkit

`normalize_url` in `core/normalization.py` delegates to `urllib.parse`'s
`urlsplit`, `urlunsplit` and `urljoin`.  These are modelled here on `List Char`,
following the CPython implementations: scheme detection at the first `:`,
netloc after `//` up to the first of `/?#`, fragment split at the first `#`
before the query split at the first `?`, removal of tab/CR/LF, and stripping of
leading/trailing controls and spaces. -/

/-- Characters CPython's `urlsplit` deletes anywhere in the URL. -/
def unsafeUrlChar (c : Char) : Bool :=
  c == '\t' || c == '\r' || c == '\n'

/-- Characters allowed after the first one in a URL scheme. -/
def schemeTailChar (c : Char) : Bool :=
  c.isAlphanum || c == '+' || c == '-' || c == '.'

/-- Split a list at the first character satisfying `p`: returns the part
before it and, when found, the part after it (the delimiter is dropped),
like Python's `str.split(d, 1)`. -/
def splitFirst (p : Char → Bool) : List Char → List Char × Option (List Char)
  | [] => ([], none)
  | c :: cs =>
    if p c then ([], some cs)
    else
      let r := splitFirst p cs
      (c :: r.1, r.2)

/-- Strip leading and trailing chars `≤ ' '` (C0 controls and space), as
CPython's `urlsplit` does on its input. -/
def stripControls (cs : List Char) : List Char :=
  ((cs.dropWhile (fun c => c ≤ ' ')).reverse.dropWhile (fun c => c ≤ ' ')).reverse

/-- A character that does not terminate the netloc component. -/
def netlocChar (c : Char) : Bool :=
  !(c == '/' || c == '?' || c == '#')

/-- Result of `urllib.parse.urlsplit`. -/
structure SplitUrl where
  scheme : List Char
  netloc : List Char
  path : List Char
  query : List Char
  fragment : List Char
deriving DecidableEq

/-- Model of `urllib.parse.urlsplit` (fragments allowed). -/
def urlsplitChars (url : List Char) : SplitUrl :=
  let url := stripControls url
  let url := url.filter (fun c => !(unsafeUrlChar c))
  let (scheme, rest) :=
    match splitFirst (· == ':') url with
    | (pre, some post) =>
      if pre ≠ [] ∧ (pre.headD 'a').isAlpha ∧ pre.all schemeTailChar then
        (pre.map Char.toLower, post)
      else
        ([], url)
    | (_, none) => ([], url)
  let (netloc, rest) :=
    if rest.take 2 = ['/', '/'] then
      ((rest.drop 2).takeWhile netlocChar, (rest.drop 2).dropWhile netlocChar)
    else ([], rest)
  let (beforeFrag, frag) := splitFirst (· == '#') rest
  let (path, query) := splitFirst (· == '?') beforeFrag
  ⟨scheme, netloc, path, query.getD [], frag.getD []⟩

/-- Model of `urllib.parse.urlunsplit`. -/
def urlunsplitChars (r : SplitUrl) : List Char :=
  let u := r.path
  let u :=
    if r.netloc ≠ [] ∨ u.take 2 = ['/', '/'] then
      '/' :: '/' :: r.netloc ++ (if u ≠ [] ∧ u.head? ≠ some '/' then '/' :: u else u)
    else u
  let u := if r.scheme ≠ [] then r.scheme ++ ':' :: u else u
  let u := if r.query ≠ [] then u ++ '?' :: r.query else u
  if r.fragment ≠ [] then u ++ '#' :: r.fragment else u

/-- Schemes for which `urljoin` performs relative resolution. -/
def usesRelative : List String :=
  ["", "ftp", "http", "gopher", "nntp", "imap", "wais", "file", "https", "shttp",
   "mms", "prospero", "rtsp", "rtspu", "sftp", "svn", "svn+ssh", "ws", "wss"]

/-- Schemes for which `urljoin` inherits the base netloc. -/
def usesNetloc : List String :=
  ["", "ftp", "http", "gopher", "nntp", "telnet", "imap", "wais", "file", "mms",
   "https", "shttp", "snews", "prospero", "rtsp", "rtspu", "rsync", "svn",
   "svn+ssh", "sftp", "nfs", "git", "git+ssh", "ws", "wss", "itms-services"]

/-- In `segments[1:-1] = filter(None, segments[1:-1])`, the middle segments that
are empty are removed while the final segment is kept. -/
def dropEmptyButLast (t : List (List Char)) : List (List Char) :=
  match t.getLast? with
  | none => []
  | some last => (t.dropLast.filter (· ≠ [])) ++ [last]

/-- Model of `urllib.parse.urljoin` (CPython's algorithm over `urlsplit`
components). -/
def urljoinStr (base url : String) : String :=
  if base = "" then url
  else if url = "" then base
  else
    let b := urlsplitChars base.toList
    let u := urlsplitChars url.toList
    let scheme := if u.scheme = [] then b.scheme else u.scheme
    if ¬(scheme = b.scheme ∧ scheme.asString ∈ usesRelative) then url
    else if scheme.asString ∈ usesNetloc ∧ u.netloc ≠ [] then
      (urlunsplitChars ⟨scheme, u.netloc, u.path, u.query, u.fragment⟩).asString
    else
      let netloc := if scheme.asString ∈ usesNetloc then b.netloc else u.netloc
      if u.path = [] then
        let query := if u.query = [] then b.query else u.query
        (urlunsplitChars ⟨scheme, netloc, b.path, query, u.fragment⟩).asString
      else
        let baseParts := b.path.splitOn '/'
        let baseParts :=
          if baseParts.getLast? ≠ some [] then baseParts.dropLast else baseParts
        let segments :=
          if u.path.head? = some '/' then u.path.splitOn '/'
          else
            match baseParts ++ u.path.splitOn '/' with
            | [] => []
            | h :: t => h :: dropEmptyButLast t
        let resolved := segments.foldl
          (fun acc seg =>
            if seg = ['.', '.'] then acc.dropLast
            else if seg = ['.'] then acc
            else acc ++ [seg]) []
        let resolved :=
          if segments.getLast? = some ['.', '.'] ∨ segments.getLast? = some ['.'] then
            resolved ++ [[]]
          else resolved
        let path := List.intercalate ['/'] resolved
        let path := if path = [] then ['/'] else path
        (urlunsplitChars ⟨scheme, netloc, path, u.query, u.fragment⟩).asString

/-- Strip leading and trailing whitespace, as Python's `str.strip()`. -/
def pyStrip (cs : List Char) : List Char :=
  ((cs.dropWhile Char.isWhitespace).reverse.dropWhile Char.isWhitespace).reverse

/-- `text.startswith(("http://", "https://"))`. -/
def startsHttp (cs : List Char) : Bool :=
  List.isPrefixOf ("http://").toList cs || List.isPrefixOf ("https://").toList cs

/-- `normalize_url` from `core/normalization.py`, on character lists. -/
def normChars (value : List Char) (base_url : Option String)
    (drop_query drop_fragment remove_www : Bool) : List Char :=
  let text := pyStrip value
  if text = [] then text
  else
    let text :=
      if ¬startsHttp text ∧ base_url.isSome then
        (urljoinStr
          ((((base_url.getD "").toList.reverse.dropWhile (· == '/')).reverse.asString)
            ++ "/")
          ((text.dropWhile (· == '/')).asString)).toList
      else text
    let parts := urlsplitChars text
    let scheme :=
      if parts.scheme.map Char.toLower = [] then ("https").toList
      else parts.scheme.map Char.toLower
    let netloc := parts.netloc.map Char.toLower
    let netloc :=
      if remove_www ∧ netloc.take 4 = ("www.").toList then netloc.drop 4
      else netloc
    let path := if parts.path = [] then ['/'] else parts.path
    let path :=
      if 1 < path.length ∧ path.getLast? = some '/' then path.dropLast else path
    let query := if drop_query then [] else parts.query
    let fragment := if drop_fragment then [] else parts.fragment
    if netloc = [] then path
    else urlunsplitChars ⟨scheme, netloc, path, query, fragment⟩

/-- `normalize_url(value, *, base_url=None, drop_query=True, drop_fragment=True,
remove_www=False)` from `core/normalization.py`. -/
def normalize_url (value : String) (base_url : Option String := none)
    (drop_query : Bool := true) (drop_fragment : Bool := true)
    (remove_www : Bool := false) : String :=
  (normChars value.toList base_url drop_query drop_fragment remove_www).asString

/-! ## Association-list model of the per-URL dictionaries -/

/-- `d.get(k)` on a Python dict modelled as an association list. -/
def alookup {α : Type} (k : String) : List (String × α) → Option α
  | [] => none
  | (k2, v) :: t => if k2 = k then some v else alookup k t

/-- `bucket[url]` on a `defaultdict`: apply `f` to the entry for `k`, inserting
`f init` at the end when `k` is absent (Python dicts keep insertion order). -/
def upsert {α : Type} (k : String) (f : α → α) (init : α) :
    List (String × α) → List (String × α)
  | [] => [(k, f init)]
  | (k2, v) :: t =>
    if k2 = k then (k2, f v) :: t else (k2, v) :: upsert k f init t

/-! ## Source aggregation (`core/normalization.py`)

Raw rows are modelled with their metric values already numeric (`ℚ`): the
claims under study do not concern `to_float`/`to_int` coercion of malformed
values, which the source resolves to the same numeric defaults. -/

/-- `_weighted_average(sum_weighted, sum_weight, fallback=0.0)`. -/
def weighted_average (sum_weighted sum_weight : ℚ) (fallback : ℚ := 0) : ℚ :=
  if sum_weight ≤ 0 then fallback else sum_weighted / sum_weight

/-- A Search Console row: `{"keys": [...], "clicks": _, "impressions": _,
"ctr": _, "position": _}`. -/
structure GscRow where
  keys : List String
  clicks : ℚ
  impressions : ℚ
  ctr : ℚ
  position : ℚ
deriving DecidableEq

/-- Accumulator bucket of `normalize_gsc_rows_by_page` before the second pass. -/
structure GscAcc where
  clicks : ℚ
  impressions : ℚ
  ctrWeighted : ℚ
  positionWeighted : ℚ
  rows : ℕ
deriving DecidableEq

/-- The `defaultdict` initial bucket. -/
def gscInit : GscAcc := ⟨0, 0, 0, 0, 0⟩

/-- One accumulation step of the `for row in rows` loop. -/
def gscAdd (a : GscAcc) (r : GscRow) : GscAcc :=
  ⟨a.clicks + r.clicks, a.impressions + r.impressions,
   a.ctrWeighted + r.ctr * r.impressions,
   a.positionWeighted + r.position * r.impressions, a.rows + 1⟩

/-- Finalized per-URL Search Console aggregate: `gsc_clicks`, `gsc_impressions`,
`gsc_rows`, `gsc_ctr`, `gsc_position`. -/
structure GscPage where
  clicks : ℚ
  impressions : ℚ
  rows : ℕ
  ctr : ℚ
  position : ℚ
deriving DecidableEq

/-- Second pass of `normalize_gsc_rows_by_page`: derive the impression-weighted
`gsc_ctr` and `gsc_position` and drop the raw weighted sums. -/
def finalizeGsc (a : GscAcc) : GscPage :=
  ⟨a.clicks, a.impressions, a.rows,
   weighted_average a.ctrWeighted a.impressions,
   weighted_average a.positionWeighted a.impressions⟩

/-- The dimension index used for the page URL: `dimensions.index("page")` when
present, else `0`. -/
def pageIndexOf (dims : List String) : ℕ :=
  if ("page") ∈ dims then dims.indexOf ("page") else 0

/-- URL extraction and the skip conditions of the row loop in
`normalize_gsc_rows_by_page`: empty `keys`, out-of-range page index, and empty
normalized URL are skipped. -/
def extractGscUrl (dims : List String) (base_url : Option String) (r : GscRow) :
    Option String :=
  if r.keys = [] then none
  else if r.keys.length ≤ pageIndexOf dims then none
  else
    let url := normalize_url (r.keys.getD (pageIndexOf dims) "") base_url
    if url = "" then none else some url

/-- One iteration of a bucket-accumulation loop: skip rows without a key,
otherwise merge the row into the key's bucket (inserting the default first). -/
def aggStep {R A : Type} (extract : R → Option String) (add : A → R → A)
    (init : A) (bucket : List (String × A)) (r : R) : List (String × A) :=
  match extract r with
  | none => bucket
  | some url => upsert url (fun a => add a r) init bucket

/-- `dimensions = list(dimensions or ["page"])`. -/
def dimsResolve (dimensions : Option (List String)) : List String :=
  match dimensions with
  | none => [("page")]
  | some [] => [("page")]
  | some ds => ds

/-- The accumulation loop of `normalize_gsc_rows_by_page`. -/
def gscFold (dims : List String) (base_url : Option String) (rows : List GscRow) :
    List (String × GscAcc) :=
  rows.foldl (aggStep (extractGscUrl dims base_url) gscAdd gscInit) []

/-- `normalize_gsc_rows_by_page(rows, dimensions=None, base_url=None)`. -/
def normalize_gsc_rows_by_page (rows : List GscRow)
    (dimensions : Option (List String) := none) (base_url : Option String := none) :
    List (String × GscPage) :=
  (gscFold (dimsResolve dimensions) base_url rows).map
    (fun e => (e.1, finalizeGsc e.2))

/-- A GA4 row: named dimension values plus the numeric metrics read by the
aggregator. -/
structure Ga4Row where
  dims : List (String × String)
  sessions : ℚ
  engagedSessions : ℚ
  conversions : ℚ
  totalUsers : ℚ
  screenPageViews : ℚ
  userEngagementDuration : ℚ
deriving DecidableEq

/-- Accumulator bucket of `normalize_ga4_rows_by_page`. -/
structure Ga4Acc where
  sessions : ℚ
  engagedSessions : ℚ
  conversions : ℚ
  totalUsers : ℚ
  screenPageViews : ℚ
  userEngagementDuration : ℚ
  rows : ℕ
deriving DecidableEq

/-- The `defaultdict` initial GA4 bucket. -/
def ga4Init : Ga4Acc := ⟨0, 0, 0, 0, 0, 0, 0⟩

/-- One accumulation step of the GA4 row loop. -/
def ga4Add (a : Ga4Acc) (r : Ga4Row) : Ga4Acc :=
  ⟨a.sessions + r.sessions, a.engagedSessions + r.engagedSessions,
   a.conversions + r.conversions, a.totalUsers + r.totalUsers,
   a.screenPageViews + r.screenPageViews,
   a.userEngagementDuration + r.userEngagementDuration, a.rows + 1⟩

/-- Finalized per-URL GA4 aggregate, with the session-weighted
`ga4_engagement_rate` and `ga4_conversion_rate`. -/
structure Ga4Page where
  sessions : ℚ
  engagedSessions : ℚ
  conversions : ℚ
  totalUsers : ℚ
  screenPageViews : ℚ
  userEngagementDuration : ℚ
  rows : ℕ
  engagementRate : ℚ
  conversionRate : ℚ
deriving DecidableEq

/-- Second pass of `normalize_ga4_rows_by_page`: `engaged / sessions` and
`conversions / sessions` when `sessions > 0`, else `0`. -/
def finalizeGa4 (a : Ga4Acc) : Ga4Page :=
  ⟨a.sessions, a.engagedSessions, a.conversions, a.totalUsers, a.screenPageViews,
   a.userEngagementDuration, a.rows,
   if 0 < a.sessions then a.engagedSessions / a.sessions else 0,
   if 0 < a.sessions then a.conversions / a.sessions else 0⟩

/-- Default URL dimension candidates of `normalize_ga4_rows_by_page`. -/
def ga4UrlCandidates : List String :=
  ["landingPagePlusQueryString", "landingPage", "fullPageUrl", "pageLocation",
   "pagePath"]

/-- URL extraction of the GA4 loop: the first candidate dimension with a
truthy (nonempty) value, normalized; rows without one are skipped, as are rows
whose URL normalizes to the empty string. -/
def extractGa4Url (candidates : List String) (base_url : Option String)
    (r : Ga4Row) : Option String :=
  match candidates.findSome?
    (fun dim =>
      match alookup dim r.dims with
      | some v => if v = "" then none else some v
      | none => none) with
  | none => none
  | some raw =>
    let url := normalize_url raw base_url
    if url = "" then none else some url

/-- The accumulation loop of `normalize_ga4_rows_by_page`. -/
def ga4Fold (candidates : List String) (base_url : Option String)
    (rows : List Ga4Row) : List (String × Ga4Acc) :=
  rows.foldl (aggStep (extractGa4Url candidates base_url) ga4Add ga4Init) []

/-- `url_dimension_candidates or [...]` resolution. -/
def candidatesResolve (cands : Option (List String)) : List String :=
  match cands with
  | none => ga4UrlCandidates
  | some [] => ga4UrlCandidates
  | some cs => cs

/-- `normalize_ga4_rows_by_page(rows, base_url=None,
url_dimension_candidates=None)`. -/
def normalize_ga4_rows_by_page (rows : List Ga4Row)
    (base_url : Option String := none)
    (url_dimension_candidates : Option (List String) := none) :
    List (String × Ga4Page) :=
  (ga4Fold (candidatesResolve url_dimension_candidates) base_url rows).map
    (fun e => (e.1, finalizeGa4 e.2))

/-- `compute_delta_pct(current, previous)`: `None` when `previous <= 0`, else
`(current - previous) / previous`. -/
def compute_delta_pct (current previous : ℚ) : Option ℚ :=
  if previous ≤ 0 then none else some ((current - previous) / previous)

/-! ## Period merge (`core/analysis.py`) -/

/-- A merged per-URL record.  A `none` source component models the absence of
that source's fields from the Python dict (downstream reads default them
to `0`); the `*Prev` components model the `gsc_prev_*` / `ga4_prev_*` fields,
present if and only if the previous-period aggregate has the URL. -/
structure MergedRow where
  url : String
  gsc : Option GscPage
  ga4 : Option Ga4Page
  gscPrev : Option (ℚ × ℚ)
  ga4Prev : Option (ℚ × ℚ)
  clicksDeltaPct : Option ℚ
  impressionsDeltaPct : Option ℚ
  sessionsDeltaPct : Option ℚ
  conversionsDeltaPct : Option ℚ
deriving DecidableEq

/-- `row.get("gsc_clicks", 0.0)` on a merged record. -/
def MergedRow.gscClicks (r : MergedRow) : ℚ := (r.gsc.map GscPage.clicks).getD 0

/-- `row.get("gsc_impressions", 0.0)` on a merged record. -/
def MergedRow.gscImpressions (r : MergedRow) : ℚ :=
  (r.gsc.map GscPage.impressions).getD 0

/-- `row.get("gsc_ctr", 0.0)` on a merged record. -/
def MergedRow.gscCtr (r : MergedRow) : ℚ := (r.gsc.map GscPage.ctr).getD 0

/-- `row.get("gsc_position", 0.0)` on a merged record. -/
def MergedRow.gscPosition (r : MergedRow) : ℚ :=
  (r.gsc.map GscPage.position).getD 0

/-- `row.get("ga4_sessions", 0.0)` on a merged record. -/
def MergedRow.ga4Sessions (r : MergedRow) : ℚ :=
  (r.ga4.map Ga4Page.sessions).getD 0

/-- `row.get("ga4_conversions", 0.0)` on a merged record. -/
def MergedRow.ga4Conversions (r : MergedRow) : ℚ :=
  (r.ga4.map Ga4Page.conversions).getD 0

/-- `row.get("ga4_conversion_rate", 0.0)` on a merged record. -/
def MergedRow.ga4ConversionRate (r : MergedRow) : ℚ :=
  (r.ga4.map Ga4Page.conversionRate).getD 0

/-- `row.get("ga4_engagement_rate", 0.0)` on a merged record. -/
def MergedRow.ga4EngagementRate (r : MergedRow) : ℚ :=
  (r.ga4.map Ga4Page.engagementRate).getD 0

/-- `row.get("gsc_prev_clicks", 0.0)` on a merged record. -/
def MergedRow.gscPrevClicks (r : MergedRow) : ℚ := (r.gscPrev.map Prod.fst).getD 0

/-- `row.get("gsc_prev_impressions", 0.0)` on a merged record. -/
def MergedRow.gscPrevImpressions (r : MergedRow) : ℚ :=
  (r.gscPrev.map Prod.snd).getD 0

/-- `row.get("ga4_prev_sessions", 0.0)` on a merged record. -/
def MergedRow.ga4PrevSessions (r : MergedRow) : ℚ := (r.ga4Prev.map Prod.fst).getD 0

/-- `row.get("ga4_prev_conversions", 0.0)` on a merged record. -/
def MergedRow.ga4PrevConversions (r : MergedRow) : ℚ :=
  (r.ga4Prev.map Prod.snd).getD 0

/-- The record built for one URL of the universe in `merge_page_metrics`. -/
def mergeRow (g a : List (String × GscPage) × List (String × Ga4Page))
    (u : String) : MergedRow :=
  let cg := alookup u g.1
  let ca := alookup u g.2
  let pg := (alookup u a.1).map (fun p => (p.clicks, p.impressions))
  let pa := (alookup u a.2).map (fun p => (p.sessions, p.conversions))
  let row : MergedRow := ⟨u, cg, ca, pg, pa, none, none, none, none⟩
  { row with
    clicksDeltaPct := compute_delta_pct row.gscClicks row.gscPrevClicks,
    impressionsDeltaPct :=
      compute_delta_pct row.gscImpressions row.gscPrevImpressions,
    sessionsDeltaPct := compute_delta_pct row.ga4Sessions row.ga4PrevSessions,
    conversionsDeltaPct :=
      compute_delta_pct row.ga4Conversions row.ga4PrevConversions }

/-- `merge_page_metrics(gsc_current, ga4_current, gsc_previous=None,
ga4_previous=None)`: one record per URL of `sorted(set(...))` over the four
key sets (`None` inputs treated as empty). -/
def merge_page_metrics (gsc_current : Option (List (String × GscPage)))
    (ga4_current : Option (List (String × Ga4Page)))
    (gsc_previous : Option (List (String × GscPage)) := none)
    (ga4_previous : Option (List (String × Ga4Page)) := none) :
    List MergedRow :=
  let g := gsc_current.getD []
  let a := ga4_current.getD []
  let gp := gsc_previous.getD []
  let ap := ga4_previous.getD []
  let urls := List.insertionSort (· ≤ ·)
    ((g.map Prod.fst ++ a.map Prod.fst ++ gp.map Prod.fst ++ ap.map Prod.fst).dedup)
  urls.map (mergeRow (g, a) (gp, ap))

/-! ## Opportunity scoring (`core/scoring.py`) -/

/-- The scoring-relevant fields of the process `Settings`
(`config.py`); the connector/date fields are outside the core modelled here. -/
structure Settings where
  min_impressions_for_ctr_action : ℚ
  min_sessions_for_conversion_action : ℚ
  target_ctr : ℚ
  target_conversion_rate : ℚ
  default_max_action_items : ℤ
deriving DecidableEq

/-- Python's `round(x, n)` on the reals: nearest multiple of `10 ^ (-n)`
(the source only ever rounds values that are not exact half-ties, so the
half-even/half-up distinction is immaterial). -/
noncomputable def pyRound (n : ℕ) (x : ℝ) : ℝ :=
  (round (x * 10 ^ n) : ℤ) / 10 ^ n

/-- Python's `round(x, n)` on the rationals (used for the evidence snapshot). -/
def pyRoundQ (n : ℕ) (x : ℚ) : ℚ :=
  (round (x * 10 ^ n) : ℤ) / 10 ^ n

/-- `ScoreResult` dataclass. -/
structure ScoreResult where
  score : ℝ
  categories : List String
  reasons : List String
  recommendations : List String
  priority : String
  expected_impact : String
  effort : String
  confidence : ℝ

/-- Category tag of the CTR-gap rule. -/
def ctrTag : String := "ctr_optimization"

/-- Category tag of the conversion-gap rule. -/
def convTag : String := "conversion_optimization"

/-- Category tag of the two decline rules. -/
def refreshTag : String := "content_refresh"

/-- Category tag of the scale-winner rule. -/
def scaleTag : String := "scale_winner"

/-- Fallback primary category used by `generate_action_items` when the score
result carries no category. -/
def opportunityStr : String := "opportunity"

/-- Priority / impact / effort tier labels. -/
def highStr : String := "high"

/-- Medium tier label. -/
def mediumStr : String := "medium"

/-- Low tier label. -/
def lowStr : String := "low"

/-- Reason attached by the CTR-gap rule. -/
def ctrReason : String :=
  "High impressions with below-target CTR indicate snippet/title opportunity."

/-- Reason attached by the conversion-gap rule. -/
def convReason : String :=
  "Strong traffic with weak conversion efficiency suggests on-page UX/content friction."

/-- Reason attached by the click-decline rule. -/
def clicksDeclineReason : String :=
  "Organic clicks are declining versus the previous period."

/-- Reason attached by the session-decline rule. -/
def sessionsDeclineReason : String :=
  "On-site sessions are declining versus the previous period."

/-- Reason attached by the scale-winner rule. -/
def scaleReason : String :=
  "Page performs well in both acquisition and conversion."

/-- Reason attached by the unconditional position bonus. -/
def posReason : String :=
  "Average position indicates page may be near page-one threshold."

/-- First recommendation of the CTR-gap rule. -/
def ctrRec1 : String :=
  "Rewrite title and meta description to better match dominant queries."

/-- Second recommendation of the CTR-gap rule. -/
def ctrRec2 : String :=
  "Test stronger value proposition in the first 60 title characters."

/-- First recommendation of the conversion-gap rule. -/
def convRec1 : String :=
  "Strengthen above-the-fold CTA and internal next-step links."

/-- Second recommendation of the conversion-gap rule. -/
def convRec2 : String :=
  "Add trust proof and tighten informational-to-commercial transition sections."

/-- Recommendation of the click-decline rule. -/
def clicksDeclineRec : String :=
  "Refresh outdated sections and compare SERP competitors for intent drift."

/-- Recommendation of the session-decline rule. -/
def sessionsDeclineRec : String :=
  "Audit UX changes, page speed, and content relevance for recent traffic loss."

/-- First recommendation of the scale-winner rule. -/
def scaleRec1 : String :=
  "Expand topic cluster around this page\x27s highest-performing query themes."

/-- Second recommendation of the scale-winner rule. -/
def scaleRec2 : String :=
  "Promote this page via internal links from adjacent intent pages."

/-- `_priority_from_score(score)`. -/
noncomputable def priority_from_score (score : ℝ) : String :=
  if 70 ≤ score then highStr else if 40 ≤ score then mediumStr else lowStr

/-- `_expected_impact(score)`. -/
noncomputable def expected_impact_from_score (score : ℝ) : String :=
  if 70 ≤ score then highStr else if 45 ≤ score then mediumStr else lowStr

/-- `_effort(categories)`. -/
def effort_from (categories : List String) : String :=
  if convTag ∈ categories ∧ refreshTag ∈ categories then mediumStr
  else if convTag ∈ categories then mediumStr
  else lowStr

/-- `_log_scale(value, multiplier)`: `0` for nonpositive values, else
`min(20, log10(value + 1) * multiplier)`. -/
noncomputable def log_scale (value : ℚ) (multiplier : ℝ) : ℝ :=
  if value ≤ 0 then 0 else min 20 (Real.logb 10 ((value : ℝ) + 1) * multiplier)

/-- Trigger of the CTR-gap rule. -/
def ctrRuleFires (s : Settings) (r : MergedRow) : Bool :=
  s.min_impressions_for_ctr_action ≤ r.gscImpressions ∧ r.gscCtr < s.target_ctr

/-- Trigger of the conversion-gap rule. -/
def convRuleFires (s : Settings) (r : MergedRow) : Bool :=
  s.min_sessions_for_conversion_action ≤ r.ga4Sessions ∧
    r.ga4ConversionRate < s.target_conversion_rate

/-- Trigger of a decline rule: a present (numeric) delta `≤ -0.2`. -/
def declineFires (delta : Option ℚ) : Bool :=
  match delta with
  | none => false
  | some d => d ≤ -(0.2 : ℚ)

/-- Trigger of the scale-winner rule. -/
def scaleRuleFires (s : Settings) (r : MergedRow) : Bool :=
  s.min_impressions_for_ctr_action ≤ r.gscImpressions ∧
    s.min_sessions_for_conversion_action ≤ r.ga4Sessions ∧
    s.target_ctr ≤ r.gscCtr ∧
    s.target_conversion_rate ≤ r.ga4ConversionRate

/-- Trigger of the unconditional position bonus. -/
def posBonusFires (r : MergedRow) : Bool :=
  8 < r.gscPosition ∧ 0 < r.gscImpressions

/-- `ctr_gap = (target - actual) / max(target, 1e-6)`. -/
def ctrGapRatio (s : Settings) (ctr : ℚ) : ℚ :=
  (s.target_ctr - ctr) / max s.target_ctr (1 / 1000000)

/-- CTR-gap contribution: `min(45, ctr_gap * 45 + _log_scale(impressions, 6))`. -/
noncomputable def ctrGapScore (s : Settings) (ctr impressions : ℚ) : ℝ :=
  min 45 ((ctrGapRatio s ctr : ℝ) * 45 + log_scale impressions 6)

/-- `cr_gap = (target - actual) / max(target, 1e-6)`. -/
def crGapRatio (s : Settings) (cr : ℚ) : ℚ :=
  (s.target_conversion_rate - cr) / max s.target_conversion_rate (1 / 1000000)

/-- Conversion-gap contribution: `min(45, cr_gap * 42 + _log_scale(sessions, 6))`. -/
noncomputable def crGapScore (s : Settings) (cr sessions : ℚ) : ℝ :=
  min 45 ((crGapRatio s cr : ℝ) * 42 + log_scale sessions 6)

/-- Decline contribution: `min(30, abs(delta) * mult)` when the rule fires. -/
def declineScore (delta : Option ℚ) (mult : ℚ) : ℚ :=
  match delta with
  | none => 0
  | some d => if d ≤ -(0.2 : ℚ) then min 30 (|d| * mult) else 0

/-- Scale-winner contribution:
`min(35, _log_scale(clicks + sessions, 7) + 10)`. -/
noncomputable def scaleScore (r : MergedRow) : ℝ :=
  min 35 (log_scale (r.gscClicks + r.ga4Sessions) 7 + 10)

/-- Position bonus: `min(12, (position - 8) * 1.5)` when
`position > 8 and impressions > 0`. -/
def positionBonus (r : MergedRow) : ℚ :=
  if posBonusFires r then min 12 ((r.gscPosition - 8) * (1.5 : ℚ)) else 0

/-- The accumulated `score` of `score_page` before rounding. -/
noncomputable def rawScore (s : Settings) (r : MergedRow) : ℝ :=
  (if ctrRuleFires s r then ctrGapScore s r.gscCtr r.gscImpressions else 0) +
  (if convRuleFires s r then crGapScore s r.ga4ConversionRate r.ga4Sessions else 0) +
  ((declineScore r.clicksDeltaPct 60 : ℚ) : ℝ) +
  ((declineScore r.sessionsDeltaPct 55 : ℚ) : ℝ) +
  (if scaleRuleFires s r then scaleScore r else 0) +
  ((positionBonus r : ℚ) : ℝ)

/-- The `categories` list of `score_page` in append order, before
sorting/deduplication. -/
def rawCategories (s : Settings) (r : MergedRow) : List String :=
  (if ctrRuleFires s r then [ctrTag] else []) ++
  (if convRuleFires s r then [convTag] else []) ++
  (if declineFires r.clicksDeltaPct then [refreshTag] else []) ++
  (if declineFires r.sessionsDeltaPct then [refreshTag] else []) ++
  (if scaleRuleFires s r then [scaleTag] else [])

/-- The `reasons` list of `score_page` in append order. -/
def rawReasons (s : Settings) (r : MergedRow) : List String :=
  (if ctrRuleFires s r then [ctrReason] else []) ++
  (if convRuleFires s r then [convReason] else []) ++
  (if declineFires r.clicksDeltaPct then [clicksDeclineReason] else []) ++
  (if declineFires r.sessionsDeltaPct then [sessionsDeclineReason] else []) ++
  (if scaleRuleFires s r then [scaleReason] else []) ++
  (if posBonusFires r then [posReason] else [])

/-- The `recommendations` list of `score_page` in append order. -/
def rawRecommendations (s : Settings) (r : MergedRow) : List String :=
  (if ctrRuleFires s r then [ctrRec1, ctrRec2] else []) ++
  (if convRuleFires s r then [convRec1, convRec2] else []) ++
  (if declineFires r.clicksDeltaPct then [clicksDeclineRec] else []) ++
  (if declineFires r.sessionsDeltaPct then [sessionsDeclineRec] else []) ++
  (if scaleRuleFires s r then [scaleRec1, scaleRec2] else [])

/-- `sources` in `score_page`: how many of impressions and sessions are
positive. -/
def sourceCount (r : MergedRow) : ℕ :=
  (if 0 < r.gscImpressions then 1 else 0) + (if 0 < r.ga4Sessions then 1 else 0)

/-- `volume_factor` in `score_page`. -/
noncomputable def volumeFactor (r : MergedRow) : ℝ :=
  (if 0 < r.gscImpressions then
    min 0.25 (Real.logb 10 ((r.gscImpressions : ℝ) + 1) / 10) else 0) +
  (if 0 < r.ga4Sessions then
    min 0.25 (Real.logb 10 ((r.ga4Sessions : ℝ) + 1) / 10) else 0)

/-- `confidence = min(1.0, 0.35 + 0.2 * sources + volume_factor)` before
rounding. -/
noncomputable def confidenceRaw (r : MergedRow) : ℝ :=
  min 1 (0.35 + 0.2 * (sourceCount r : ℝ) + volumeFactor r)

/-- The canonical zero result returned when no rule triggered and the score is
nonpositive. -/
def zeroScoreResult : ScoreResult :=
  ⟨0, [], [], [], lowStr, lowStr, lowStr, 0⟩

open scoped Classical

/-- `score_page(page, settings)` from `core/scoring.py`. -/
noncomputable def score_page (r : MergedRow) (s : Settings) : ScoreResult :=
  if rawCategories s r = [] ∧ rawScore s r ≤ 0 then zeroScoreResult
  else
    let cats := List.insertionSort (· ≤ ·) (rawCategories s r).dedup
    ⟨pyRound 2 (rawScore s r), cats, (rawReasons s r).eraseDups,
     (rawRecommendations s r).eraseDups, priority_from_score (rawScore s r),
     expected_impact_from_score (rawScore s r), effort_from cats,
     pyRound 2 (confidenceRaw r)⟩

/-! ## Action items (`core/analysis.py`) -/

/-- The rounded `evidence` snapshot attached to an action item. -/
structure Evidence where
  gsc_impressions : ℚ
  gsc_clicks : ℚ
  gsc_ctr : ℚ
  gsc_position : ℚ
  ga4_sessions : ℚ
  ga4_engagement_rate : ℚ
  ga4_conversion_rate : ℚ
  gsc_clicks_delta_pct : Option ℚ
  ga4_sessions_delta_pct : Option ℚ

/-- Builds the `evidence` dict of an action item. -/
def mkEvidence (p : MergedRow) : Evidence :=
  ⟨pyRoundQ 2 p.gscImpressions, pyRoundQ 2 p.gscClicks, pyRoundQ 4 p.gscCtr,
   pyRoundQ 2 p.gscPosition, pyRoundQ 2 p.ga4Sessions,
   pyRoundQ 4 p.ga4EngagementRate, pyRoundQ 4 p.ga4ConversionRate,
   p.clicksDeltaPct, p.sessionsDeltaPct⟩

/-- One generated action item. -/
structure ActionItem where
  url : String
  score : ℝ
  priority : String
  category : String
  categories : List String
  expected_impact : String
  effort : String
  confidence : ℝ
  reasons : List String
  recommended_actions : List String
  evidence : Evidence

/-- The item dict built for a surviving page: the primary `category` is the
first of the (sorted) category list, or `"opportunity"` when empty. -/
def mkActionItem (p : MergedRow) (res : ScoreResult) : ActionItem :=
  ⟨p.url, res.score, res.priority, res.categories.headD opportunityStr,
   res.categories, res.expected_impact, res.effort, res.confidence, res.reasons,
   res.recommendations, mkEvidence p⟩

/-- Descending order on `(score, confidence)`: `itemGE i j` holds when `i` may
come before `j` in the reverse-sorted list. -/
def itemGE (i j : ActionItem) : Prop :=
  j.score < i.score ∨ (j.score = i.score ∧ j.confidence ≤ i.confidence)

/-- `generate_action_items(merged_pages, settings, max_items=None)`: score,
drop nonpositive scores, sort descending by `(score, confidence)`, truncate to
`max(1, limit)`. -/
noncomputable def generate_action_items (pages : List MergedRow) (s : Settings)
    (max_items : Option ℤ := none) : List ActionItem :=
  let limit := max_items.getD s.default_max_action_items
  let items := pages.filterMap (fun p =>
    let res := score_page p s
    if res.score ≤ 0 then none else some (mkActionItem p res))
  (List.insertionSort itemGE items).take (max 1 limit).toNat

/-! ## Helper lemmas -/

/-- Default process settings (`config.py` defaults): 200 impressions, 50
sessions, 3% target CTR, 2% target conversion rate, 30 items. -/
def defaultSettings : Settings := ⟨200, 50, 3 / 100, 1 / 50, 30⟩

theorem log_scale_nonneg (v : ℚ) (m : ℝ) (hm : 0 ≤ m) : 0 ≤ log_scale v m := by
  unfold log_scale
  split_ifs with h
  · exact le_refl 0
  · have hv : (0 : ℝ) < (v : ℝ) := by exact_mod_cast not_le.mp h
    have hl : 0 ≤ Real.logb 10 ((v : ℝ) + 1) :=
      Real.logb_nonneg (by norm_num) (by linarith)
    exact le_min (by norm_num) (mul_nonneg hl hm)

theorem log_scale_mono {v1 v2 : ℚ} (m : ℝ) (hm : 0 ≤ m) (h : v1 ≤ v2) :
    log_scale v1 m ≤ log_scale v2 m := by
  by_cases h1 : v1 ≤ 0
  · rw [show log_scale v1 m = 0 from if_pos h1]
    exact log_scale_nonneg v2 m hm
  · have h2 : ¬v2 ≤ 0 := fun hc => h1 (h.trans hc)
    rw [show log_scale v1 m = _ from if_neg h1, show log_scale v2 m = _ from if_neg h2]
    refine min_le_min (le_refl _) (mul_le_mul_of_nonneg_right ?_ hm)
    have hv1 : (0 : ℝ) < (v1 : ℝ) := by exact_mod_cast not_le.mp h1
    have hle : ((v1 : ℝ) + 1) ≤ ((v2 : ℝ) + 1) := by
      have : (v1 : ℝ) ≤ (v2 : ℝ) := by exact_mod_cast h
      linarith
    exact Real.logb_le_logb_of_le (by norm_num) (by linarith) hle

/-! ## C3: delta percentage null-safety -/

/-- C3: for every pair `(current, previous)`, the delta percentage is
`(current - previous) / previous` when `previous > 0` and `None` when
`previous ≤ 0`; and each of the four delta fields of every merged record is
computed by that rule from the record's own current and previous values (which
default to `0` when absent). -/
theorem delta_pct_null_safe :
    (∀ c p : ℚ, 0 < p → compute_delta_pct c p = some ((c - p) / p)) ∧
    (∀ c p : ℚ, p ≤ 0 → compute_delta_pct c p = none) ∧
    (∀ g a gp ap r, r ∈ merge_page_metrics g a gp ap →
      r.clicksDeltaPct = compute_delta_pct r.gscClicks r.gscPrevClicks ∧
      r.impressionsDeltaPct =
        compute_delta_pct r.gscImpressions r.gscPrevImpressions ∧
      r.sessionsDeltaPct = compute_delta_pct r.ga4Sessions r.ga4PrevSessions ∧
      r.conversionsDeltaPct =
        compute_delta_pct r.ga4Conversions r.ga4PrevConversions) := by
  refine ⟨fun c p hp => if_neg (not_le.mpr hp), fun c p hp => if_pos hp,
    fun g a gp ap r hr => ?_⟩
  simp only [merge_page_metrics, List.mem_map] at hr
  obtain ⟨u, _, rfl⟩ := hr
  simp only [mergeRow, MergedRow.gscClicks, MergedRow.gscPrevClicks,
    MergedRow.gscImpressions, MergedRow.gscPrevImpressions,
    MergedRow.ga4Sessions, MergedRow.ga4PrevSessions, MergedRow.ga4Conversions,
    MergedRow.ga4PrevConversions]
  exact ⟨trivial, trivial, trivial, trivial⟩

/-- Witness for C3 at concrete inputs: previous `2` gives the ratio, previous
`0` gives `None`. -/
theorem delta_pct_null_safe_witness :
    compute_delta_pct 5 2 = some ((5 - 2) / 2) ∧ compute_delta_pct 5 0 = none :=
  ⟨delta_pct_null_safe.1 5 2 (by norm_num), delta_pct_null_safe.2.1 5 0 (by norm_num)⟩

/-! ## C5: priority and expected-impact thresholds -/

/-- C5: priority is `high` at score ≥ 70, `medium` at ≥ 40, else `low`;
expected impact is `high` at ≥ 70, `medium` at ≥ 45, else `low`; hence on
`[40, 45)` priority is `medium` while expected impact is `low`. -/
theorem tier_thresholds :
    (∀ x : ℝ, 70 ≤ x → priority_from_score x = highStr) ∧
    (∀ x : ℝ, 40 ≤ x → x < 70 → priority_from_score x = mediumStr) ∧
    (∀ x : ℝ, x < 40 → priority_from_score x = lowStr) ∧
    (∀ x : ℝ, 70 ≤ x → expected_impact_from_score x = highStr) ∧
    (∀ x : ℝ, 45 ≤ x → x < 70 → expected_impact_from_score x = mediumStr) ∧
    (∀ x : ℝ, x < 45 → expected_impact_from_score x = lowStr) ∧
    (∀ x : ℝ, 40 ≤ x → x < 45 →
      priority_from_score x = mediumStr ∧ expected_impact_from_score x = lowStr) := by
  have hp_hi : ∀ x : ℝ, 70 ≤ x → priority_from_score x = highStr :=
    fun x h => if_pos h
  have hp_med : ∀ x : ℝ, 40 ≤ x → x < 70 → priority_from_score x = mediumStr := by
    intro x h1 h2
    unfold priority_from_score
    rw [if_neg (not_le.mpr h2), if_pos h1]
  have hp_low : ∀ x : ℝ, x < 40 → priority_from_score x = lowStr := by
    intro x h
    unfold priority_from_score
    rw [if_neg (not_le.mpr (h.trans_le (by norm_num))), if_neg (not_le.mpr h)]
  have hi_hi : ∀ x : ℝ, 70 ≤ x → expected_impact_from_score x = highStr :=
    fun x h => if_pos h
  have hi_med : ∀ x : ℝ, 45 ≤ x → x < 70 → expected_impact_from_score x = mediumStr := by
    intro x h1 h2
    unfold expected_impact_from_score
    rw [if_neg (not_le.mpr h2), if_pos h1]
  have hi_low : ∀ x : ℝ, x < 45 → expected_impact_from_score x = lowStr := by
    intro x h
    unfold expected_impact_from_score
    rw [if_neg (not_le.mpr (h.trans_le (by norm_num))), if_neg (not_le.mpr h)]
  exact ⟨hp_hi, hp_med, hp_low, hi_hi, hi_med, hi_low,
    fun x h1 h2 => ⟨hp_med x h1 (h2.trans_le (by norm_num)), hi_low x h2⟩⟩

/-- Witness for C5 at score 42: priority `medium`, expected impact `low`. -/
theorem tier_thresholds_witness :
    priority_from_score 42 = mediumStr ∧ expected_impact_from_score 42 = lowStr :=
  tier_thresholds.2.2.2.2.2.2 42 (by norm_num) (by norm_num)

/-! ## C9: monotonicity of the CTR-gap component in impressions -/

/-- C9: with CTR fixed below target and impressions above the configured
minimum, the CTR-gap component `min(45, gap_ratio * 45 + log_bonus)` is
monotone non-decreasing in impressions. -/
theorem ctr_gap_component_mono (s : Settings) (ctr i1 i2 : ℚ)
    (hmin : s.min_impressions_for_ctr_action ≤ i1) (hctr : ctr < s.target_ctr)
    (h : i1 ≤ i2) : ctrGapScore s ctr i1 ≤ ctrGapScore s ctr i2 := by
  unfold ctrGapScore
  exact min_le_min (le_refl _)
    (add_le_add_left (log_scale_mono 6 (by norm_num) h) _)

/-- Witness for C9: default settings, CTR 0, impressions 999 versus 9999. -/
theorem ctr_gap_component_mono_witness :
    ctrGapScore defaultSettings 0 999 ≤ ctrGapScore defaultSettings 0 9999 :=
  ctr_gap_component_mono defaultSettings 0 999 9999
    (by norm_num [defaultSettings]) (by norm_num [defaultSettings]) (by norm_num)

/-! ## C7: URL normalization idempotence -/

/-- C7 counterexample: the trailing-slash rule strips exactly one slash per
call, so normalization is not idempotent.  `"https://example.com/a//"`
normalizes (default flags) to `"https://example.com/a/"`, which renormalizes
to `"https://example.com/a"`. -/
theorem normalize_url_not_idempotent :
    normalize_url (normalize_url ("https://example.com/a//")) ≠
      normalize_url ("https://example.com/a//") := by
  decide

/-! ## Aggregation lemmas -/

theorem alookup_upsert_self {α : Type} (k : String) (f : α → α) (init : α) :
    ∀ l : List (String × α),
      alookup k (upsert k f init l) = some (f ((alookup k l).getD init)) := by
  intro l
  induction l with
  | nil => simp [upsert, alookup]
  | cons e t ih =>
    obtain ⟨k2, v⟩ := e
    by_cases h : k2 = k
    · subst h
      simp [upsert, alookup]
    · simp [upsert, alookup, h, ih]

theorem alookup_upsert_ne {α : Type} {k k2 : String} (f : α → α) (init : α)
    (h : k2 ≠ k) :
    ∀ l : List (String × α), alookup k (upsert k2 f init l) = alookup k l := by
  intro l
  induction l with
  | nil => simp [upsert, alookup, h]
  | cons e t ih =>
    obtain ⟨k3, v⟩ := e
    by_cases h3 : k3 = k2
    · subst h3
      simp [upsert, alookup, h]
    · by_cases h4 : k3 = k
      · subst h4
        simp [upsert, alookup, h3]
      · simp [upsert, alookup, h3, h4, ih]

theorem alookup_map_value {α β : Type} (f : α → β) (k : String) :
    ∀ l : List (String × α),
      alookup k (l.map (fun e => (e.1, f e.2))) = (alookup k l).map f := by
  intro l
  induction l with
  | nil => simp [alookup]
  | cons e t ih =>
    obtain ⟨k2, v⟩ := e
    by_cases h : k2 = k
    · subst h
      simp [alookup]
    · simp [alookup, h, ih]

/-- Rows contributing to the bucket of `u`: those whose extracted, normalized
URL is `u`. -/
def aggContrib {R : Type} (extract : R → Option String) (u : String)
    (rows : List R) : List R :=
  rows.filter (fun r => decide (extract r = some u))

theorem aggStep_foldl_alookup {R A : Type} (extract : R → Option String)
    (add : A → R → A) (init : A) :
    ∀ (rows : List R) (bucket : List (String × A)) (u : String),
      alookup u (rows.foldl (aggStep extract add init) bucket) =
        (aggContrib extract u rows).foldl
          (fun acc r => some (add (acc.getD init) r)) (alookup u bucket) := by
  intro rows
  induction rows with
  | nil => intro bucket u; simp [aggContrib]
  | cons r t ih =>
    intro bucket u
    rw [List.foldl_cons, ih]
    cases hx : extract r with
    | none =>
      have hstep : aggStep extract add init bucket r = bucket := by
        simp [aggStep, hx]
      have hfil : aggContrib extract u (r :: t) = aggContrib extract u t := by
        simp [aggContrib, List.filter_cons, hx]
      rw [hstep, hfil]
    | some url =>
      by_cases hu : url = u
      · subst hu
        have hstep : aggStep extract add init bucket r =
            upsert url (fun a => add a r) init bucket := by
          simp [aggStep, hx]
        have hfil : aggContrib extract url (r :: t) =
            r :: aggContrib extract url t := by
          simp [aggContrib, List.filter_cons, hx]
        rw [hstep, hfil, List.foldl_cons, alookup_upsert_self]
      · have hstep : aggStep extract add init bucket r =
            upsert url (fun a => add a r) init bucket := by
          simp [aggStep, hx]
        have hfil : aggContrib extract u (r :: t) = aggContrib extract u t := by
          simp [aggContrib, List.filter_cons, hx, hu]
        rw [hstep, hfil, alookup_upsert_ne _ _ hu]

theorem foldl_some_add {R A : Type} (add : A → R → A) (init : A) :
    ∀ (c : List R) (a : A),
      c.foldl (fun acc r => some (add (acc.getD init) r)) (some a) =
        some (c.foldl add a) := by
  intro c
  induction c with
  | nil => intro a; rfl
  | cons r t ih => intro a; simp [List.foldl_cons, ih]

/-- Master description of a bucket loop: the entry for `u` is absent when no
row contributes, and otherwise is the fold of the contributing rows. -/
theorem aggLoop_alookup {R A : Type} (extract : R → Option String)
    (add : A → R → A) (init : A) (rows : List R) (u : String) :
    alookup u (rows.foldl (aggStep extract add init) []) =
      (if aggContrib extract u rows = [] then none
       else some ((aggContrib extract u rows).foldl add init)) := by
  rw [aggStep_foldl_alookup]
  cases hc : aggContrib extract u rows with
  | nil => simp [alookup]
  | cons r t =>
    have : alookup u ([] : List (String × A)) = none := rfl
    rw [this]
    simp only [List.foldl_cons, Option.getD_none, foldl_some_add]
    rfl

theorem gsc_foldl_fields :
    ∀ (l : List GscRow) (a : GscAcc),
      l.foldl gscAdd a =
        ⟨a.clicks + (l.map GscRow.clicks).sum,
         a.impressions + (l.map GscRow.impressions).sum,
         a.ctrWeighted + (l.map (fun r => r.ctr * r.impressions)).sum,
         a.positionWeighted + (l.map (fun r => r.position * r.impressions)).sum,
         a.rows + l.length⟩ := by
  intro l
  induction l with
  | nil => intro a; simp
  | cons r t ih =>
    intro a
    simp only [List.foldl_cons, ih, gscAdd, List.map_cons, List.sum_cons,
      List.length_cons, GscAcc.mk.injEq]
    refine ⟨by ring, by ring, by ring, by ring, by omega⟩

theorem ga4_foldl_fields :
    ∀ (l : List Ga4Row) (a : Ga4Acc),
      l.foldl ga4Add a =
        ⟨a.sessions + (l.map Ga4Row.sessions).sum,
         a.engagedSessions + (l.map Ga4Row.engagedSessions).sum,
         a.conversions + (l.map Ga4Row.conversions).sum,
         a.totalUsers + (l.map Ga4Row.totalUsers).sum,
         a.screenPageViews + (l.map Ga4Row.screenPageViews).sum,
         a.userEngagementDuration + (l.map Ga4Row.userEngagementDuration).sum,
         a.rows + l.length⟩ := by
  intro l
  induction l with
  | nil => intro a; simp
  | cons r t ih =>
    intro a
    simp only [List.foldl_cons, ih, ga4Add, List.map_cons, List.sum_cons,
      List.length_cons, Ga4Acc.mk.injEq]
    refine ⟨by ring, by ring, by ring, by ring, by ring, by ring, by omega⟩

/-! ## C2: impression-weighted CTR and position aggregation -/

/-- C2: the per-URL `gsc_ctr` and `gsc_position` of
`normalize_gsc_rows_by_page` are the impression-weighted averages of the
contributing rows (sum of `ctr * impressions` over sum of `impressions`, and
likewise for position), with the ratio defined as the quotient for positive
weight and falling back to `0` for nonpositive weight. -/
theorem gsc_weighted_aggregation (rows : List GscRow)
    (dimensions : Option (List String)) (base_url : Option String) (u : String)
    (p : GscPage)
    (h : alookup u (normalize_gsc_rows_by_page rows dimensions base_url) = some p) :
    p.ctr =
      weighted_average
        (((aggContrib (extractGscUrl (dimsResolve dimensions) base_url) u rows).map
            (fun r => r.ctr * r.impressions)).sum)
        (((aggContrib (extractGscUrl (dimsResolve dimensions) base_url) u rows).map
            GscRow.impressions).sum) ∧
    p.position =
      weighted_average
        (((aggContrib (extractGscUrl (dimsResolve dimensions) base_url) u rows).map
            (fun r => r.position * r.impressions)).sum)
        (((aggContrib (extractGscUrl (dimsResolve dimensions) base_url) u rows).map
            GscRow.impressions).sum) ∧
    (∀ sw w : ℚ, w ≤ 0 → weighted_average sw w = 0) ∧
    (∀ sw w : ℚ, 0 < w → weighted_average sw w = sw / w) := by
  unfold normalize_gsc_rows_by_page gscFold at h
  rw [alookup_map_value, aggLoop_alookup] at h
  by_cases hc :
      aggContrib (extractGscUrl (dimsResolve dimensions) base_url) u rows = []
  · rw [if_pos hc] at h
    simp at h
  · rw [if_neg hc, gsc_foldl_fields] at h
    simp only [Option.map_some'] at h
    have hp := (Option.some.injEq _ _).mp h
    refine ⟨?_, ?_, fun sw w hw => if_pos hw,
      fun sw w hw => if_neg (not_le.mpr hw)⟩
    · rw [← hp]
      simp [finalizeGsc, gscInit]
    · rw [← hp]
      simp [finalizeGsc, gscInit]

/-- Witness for C2: two rows for the same URL with impressions 100 and 300 and
CTRs 0.10 and 0.02 aggregate to CTR `16/400 = 0.04`, not the unweighted mean
`0.06`. -/
theorem gsc_weighted_aggregation_witness :
    alookup ("https://e.com/a")
        (normalize_gsc_rows_by_page
          [⟨["https://e.com/a"], 10, 100, 1 / 10, 5⟩,
           ⟨["https://e.com/a"], 6, 300, 1 / 50, 10⟩] none none) =
      some ⟨16, 400, 2, 1 / 25, 35 / 4⟩ ∧
    (1 / 25 : ℚ) = 4 / 100 ∧ (1 / 25 : ℚ) ≠ (1 / 10 + 1 / 50) / 2 := by
  have hurl : ∀ c i t p : ℚ, extractGscUrl (dimsResolve none) none
      ⟨["https://e.com/a"], c, i, t, p⟩ = some ("https://e.com/a") := by
    intro c i t p
    have : normalize_url ("https://e.com/a") none = "https://e.com/a" := by decide
    simp [extractGscUrl, dimsResolve, pageIndexOf, this]
  have hcontrib : aggContrib (extractGscUrl (dimsResolve none) none)
      ("https://e.com/a")
      [⟨["https://e.com/a"], 10, 100, 1 / 10, 5⟩,
       ⟨["https://e.com/a"], 6, 300, 1 / 50, 10⟩] =
      [⟨["https://e.com/a"], 10, 100, 1 / 10, 5⟩,
       ⟨["https://e.com/a"], 6, 300, 1 / 50, 10⟩] := by
    simp [aggContrib, List.filter_cons, hurl]
  have h : alookup ("https://e.com/a")
      (normalize_gsc_rows_by_page
        [⟨["https://e.com/a"], 10, 100, 1 / 10, 5⟩,
         ⟨["https://e.com/a"], 6, 300, 1 / 50, 10⟩] none none) =
      some ⟨16, 400, 2, 1 / 25, 35 / 4⟩ := by
    unfold normalize_gsc_rows_by_page gscFold
    rw [alookup_map_value, aggLoop_alookup, hcontrib, if_neg (by simp)]
    simp only [List.foldl_cons, List.foldl_nil, Option.map_some']
    norm_num [gscAdd, gscInit, finalizeGsc, weighted_average, GscPage.mk.injEq]
  refine ⟨?_, by norm_num, by norm_num⟩
  have hthm := gsc_weighted_aggregation _ none none _ _ h
  exact h

/-! ## C8: order-invariance of both aggregators -/

/-- C8: for both aggregators, permuting the input rows leaves the per-URL
mapping (totals and derived ratios) unchanged. -/
theorem aggregation_perm_invariant :
    (∀ (rows rows2 : List GscRow) (dimensions : Option (List String))
        (base_url : Option String), rows.Perm rows2 →
      ∀ u, alookup u (normalize_gsc_rows_by_page rows dimensions base_url) =
        alookup u (normalize_gsc_rows_by_page rows2 dimensions base_url)) ∧
    (∀ (rows rows2 : List Ga4Row) (base_url : Option String)
        (cands : Option (List String)), rows.Perm rows2 →
      ∀ u, alookup u (normalize_ga4_rows_by_page rows base_url cands) =
        alookup u (normalize_ga4_rows_by_page rows2 base_url cands)) := by
  constructor
  · intro rows rows2 dimensions base_url h u
    unfold normalize_gsc_rows_by_page gscFold
    rw [alookup_map_value, alookup_map_value, aggLoop_alookup, aggLoop_alookup]
    have hperm : List.Perm
        (aggContrib (extractGscUrl (dimsResolve dimensions) base_url) u rows)
        (aggContrib (extractGscUrl (dimsResolve dimensions) base_url) u rows2) :=
      h.filter _
    by_cases hc :
        aggContrib (extractGscUrl (dimsResolve dimensions) base_url) u rows = []
    · have hc2 :
          aggContrib (extractGscUrl (dimsResolve dimensions) base_url) u rows2 = [] := by
        have hl := hperm.length_eq
        rw [hc] at hl
        exact List.length_eq_zero.mp hl.symm
      rw [if_pos hc, if_pos hc2]
    · have hc2 :
          aggContrib (extractGscUrl (dimsResolve dimensions) base_url) u rows2 ≠ [] := by
        intro hnil
        have hl := hperm.length_eq
        rw [hnil] at hl
        exact hc (List.length_eq_zero.mp hl)
      rw [if_neg hc, if_neg hc2, gsc_foldl_fields, gsc_foldl_fields]
      have e1 := (hperm.map GscRow.clicks).sum_eq
      have e2 := (hperm.map GscRow.impressions).sum_eq
      have e3 := (hperm.map (fun r => r.ctr * r.impressions)).sum_eq
      have e4 := (hperm.map (fun r => r.position * r.impressions)).sum_eq
      have e5 := hperm.length_eq
      rw [e1, e2, e3, e4, e5]
  · intro rows rows2 base_url cands h u
    unfold normalize_ga4_rows_by_page ga4Fold
    rw [alookup_map_value, alookup_map_value, aggLoop_alookup, aggLoop_alookup]
    have hperm : List.Perm
        (aggContrib (extractGa4Url (candidatesResolve cands) base_url) u rows)
        (aggContrib (extractGa4Url (candidatesResolve cands) base_url) u rows2) :=
      h.filter _
    by_cases hc :
        aggContrib (extractGa4Url (candidatesResolve cands) base_url) u rows = []
    · have hc2 :
          aggContrib (extractGa4Url (candidatesResolve cands) base_url) u rows2 = [] := by
        have hl := hperm.length_eq
        rw [hc] at hl
        exact List.length_eq_zero.mp hl.symm
      rw [if_pos hc, if_pos hc2]
    · have hc2 :
          aggContrib (extractGa4Url (candidatesResolve cands) base_url) u rows2 ≠ [] := by
        intro hnil
        have hl := hperm.length_eq
        rw [hnil] at hl
        exact hc (List.length_eq_zero.mp hl)
      rw [if_neg hc, if_neg hc2, ga4_foldl_fields, ga4_foldl_fields]
      have e1 := (hperm.map Ga4Row.sessions).sum_eq
      have e2 := (hperm.map Ga4Row.engagedSessions).sum_eq
      have e3 := (hperm.map Ga4Row.conversions).sum_eq
      have e4 := (hperm.map Ga4Row.totalUsers).sum_eq
      have e5 := (hperm.map Ga4Row.screenPageViews).sum_eq
      have e6 := (hperm.map Ga4Row.userEngagementDuration).sum_eq
      have e7 := hperm.length_eq
      rw [e1, e2, e3, e4, e5, e6, e7]

/-- Witness for C8: swapping two concrete rows leaves both aggregators'
lookups unchanged. -/
theorem aggregation_perm_invariant_witness :
    (∀ u, alookup u (normalize_gsc_rows_by_page
        [⟨["https://e.com/a"], 10, 100, 1 / 10, 5⟩,
         ⟨["https://e.com/b"], 6, 300, 1 / 50, 10⟩] none none) =
      alookup u (normalize_gsc_rows_by_page
        [⟨["https://e.com/b"], 6, 300, 1 / 50, 10⟩,
         ⟨["https://e.com/a"], 10, 100, 1 / 10, 5⟩] none none)) ∧
    (∀ u, alookup u (normalize_ga4_rows_by_page
        [⟨[("pagePath", "https://e.com/a")], 50, 40, 2, 45, 60, 1000⟩,
         ⟨[("pagePath", "https://e.com/b")], 30, 10, 1, 25, 31, 500⟩] none none) =
      alookup u (normalize_ga4_rows_by_page
        [⟨[("pagePath", "https://e.com/b")], 30, 10, 1, 25, 31, 500⟩,
         ⟨[("pagePath", "https://e.com/a")], 50, 40, 2, 45, 60, 1000⟩] none none)) :=
  ⟨fun u => aggregation_perm_invariant.1 _ _ none none (List.Perm.swap _ _ _) u,
   fun u => aggregation_perm_invariant.2 _ _ none none (List.Perm.swap _ _ _) u⟩

/-! ## C1: merge universe, ordering, and field provenance -/

theorem alookup_isSome_iff {α : Type} (k : String) :
    ∀ l : List (String × α), (alookup k l).isSome ↔ k ∈ l.map Prod.fst := by
  intro l
  induction l with
  | nil => simp [alookup]
  | cons e t ih =>
    obtain ⟨k2, v⟩ := e
    by_cases h : k2 = k
    · subst h
      simp [alookup]
    · simp [alookup, h, ih, Ne.symm h]

theorem sorted_lt_of_sorted_le_nodup :
    ∀ l : List String, l.Sorted (· ≤ ·) → l.Nodup → l.Sorted (· < ·) := by
  intro l
  induction l with
  | nil => intro _ _; exact List.sorted_nil
  | cons a t ih =>
    intro hs hn
    rw [List.sorted_cons] at hs ⊢
    rw [List.nodup_cons] at hn
    refine ⟨fun b hb => lt_of_le_of_ne (hs.1 b hb) ?_, ih hs.2 hn.2⟩
    intro hab
    exact hn.1 (hab ▸ hb)

theorem mergeRow_url (x : List (String × GscPage) × List (String × Ga4Page))
    (y : List (String × GscPage) × List (String × Ga4Page)) (u : String) :
    (mergeRow x y u).url = u := rfl

/-- The four key lists whose union forms the URL universe of the merge. -/
def mergeKeys (g gp : Option (List (String × GscPage)))
    (a ap : Option (List (String × Ga4Page))) : List String :=
  (g.getD []).map Prod.fst ++ (a.getD []).map Prod.fst ++
    (gp.getD []).map Prod.fst ++ (ap.getD []).map Prod.fst

/-- C1: `merge_page_metrics` emits exactly one record per URL of the union of
the four input key sets, in strictly increasing (lexicographic) URL order;
each record's current fields are exactly the source aggregates for its URL
(absent entries stay `none`, making every metric getter default to `0`), and
the previous-period fields are present if and only if the corresponding
previous aggregate contains the URL. -/
theorem merge_universe_sorted (g : Option (List (String × GscPage)))
    (a : Option (List (String × Ga4Page)))
    (gp : Option (List (String × GscPage)))
    (ap : Option (List (String × Ga4Page))) :
    ((merge_page_metrics g a gp ap).map MergedRow.url).Sorted (· < ·) ∧
    (∀ u, u ∈ (merge_page_metrics g a gp ap).map MergedRow.url ↔
      u ∈ mergeKeys g gp a ap) ∧
    (∀ r ∈ merge_page_metrics g a gp ap,
      r.gsc = alookup r.url (g.getD []) ∧
      r.ga4 = alookup r.url (a.getD []) ∧
      r.gscPrev =
        (alookup r.url (gp.getD [])).map (fun p => (p.clicks, p.impressions)) ∧
      r.ga4Prev =
        (alookup r.url (ap.getD [])).map (fun p => (p.sessions, p.conversions)) ∧
      (r.gscPrev.isSome ↔ r.url ∈ (gp.getD []).map Prod.fst) ∧
      (r.ga4Prev.isSome ↔ r.url ∈ (ap.getD []).map Prod.fst) ∧
      (r.gsc = none →
        r.gscClicks = 0 ∧ r.gscImpressions = 0 ∧ r.gscCtr = 0 ∧
          r.gscPosition = 0) ∧
      (r.ga4 = none →
        r.ga4Sessions = 0 ∧ r.ga4Conversions = 0 ∧ r.ga4ConversionRate = 0 ∧
          r.ga4EngagementRate = 0)) := by
  have hmap : (merge_page_metrics g a gp ap).map MergedRow.url =
      List.insertionSort (· ≤ ·)
        (((g.getD []).map Prod.fst ++ (a.getD []).map Prod.fst ++
          (gp.getD []).map Prod.fst ++ (ap.getD []).map Prod.fst).dedup) := by
    unfold merge_page_metrics
    rw [List.map_map]
    have : MergedRow.url ∘ mergeRow (g.getD [], a.getD []) (gp.getD [], ap.getD []) =
        fun u => u := by
      funext u
      exact mergeRow_url _ _ u
    rw [this, List.map_id']
  refine ⟨?_, ?_, ?_⟩
  · rw [hmap]
    refine sorted_lt_of_sorted_le_nodup _ (List.sorted_insertionSort _ _) ?_
    exact ((List.perm_insertionSort _ _).nodup_iff).mpr (List.nodup_dedup _)
  · intro u
    rw [hmap, mergeKeys]
    simp [List.mem_dedup]
  · intro r hr
    unfold merge_page_metrics at hr
    rw [List.mem_map] at hr
    obtain ⟨u, _, rfl⟩ := hr
    rw [mergeRow_url]
    refine ⟨rfl, rfl, rfl, rfl, ?_, ?_, ?_, ?_⟩
    · rw [show (mergeRow (g.getD [], a.getD []) (gp.getD [], ap.getD []) u).gscPrev =
        (alookup u (gp.getD [])).map (fun p => (p.clicks, p.impressions)) from rfl]
      rw [Option.isSome_map']
      exact alookup_isSome_iff u _
    · rw [show (mergeRow (g.getD [], a.getD []) (gp.getD [], ap.getD []) u).ga4Prev =
        (alookup u (ap.getD [])).map (fun p => (p.sessions, p.conversions)) from rfl]
      rw [Option.isSome_map']
      exact alookup_isSome_iff u _
    · intro hnone
      simp [MergedRow.gscClicks, MergedRow.gscImpressions, MergedRow.gscCtr,
        MergedRow.gscPosition, hnone]
    · intro hnone
      simp [MergedRow.ga4Sessions, MergedRow.ga4Conversions,
        MergedRow.ga4ConversionRate, MergedRow.ga4EngagementRate, hnone]

/-- Witness for C1 at a concrete input: source A has only URL "b", source B
has only URL "a"; the merged URL list is the sorted union. -/
theorem merge_universe_sorted_witness :
    ((merge_page_metrics (some [(("https://e.com/b"), ⟨1, 2, 1, 1 / 2, 3⟩)])
        (some [(("https://e.com/a"), ⟨4, 3, 1, 5, 7, 8, 1, 3 / 4, 1 / 4⟩)])
        none none).map MergedRow.url).Sorted (· < ·) ∧
    (∀ u, u ∈ ((merge_page_metrics
        (some [(("https://e.com/b"), ⟨1, 2, 1, 1 / 2, 3⟩)])
        (some [(("https://e.com/a"), ⟨4, 3, 1, 5, 7, 8, 1, 3 / 4, 1 / 4⟩)])
        none none).map MergedRow.url) ↔
      u ∈ mergeKeys (some [(("https://e.com/b"), ⟨1, 2, 1, 1 / 2, 3⟩)]) none
        (some [(("https://e.com/a"), ⟨4, 3, 1, 5, 7, 8, 1, 3 / 4, 1 / 4⟩)]) none) :=
  ⟨(merge_universe_sorted _ _ _ _).1, (merge_universe_sorted _ _ _ _).2.1⟩

/-! ## Rounding and confidence lemmas -/

theorem pyRound_nonneg (n : ℕ) {x : ℝ} (hx : 0 ≤ x) : 0 ≤ pyRound n x := by
  unfold pyRound
  have h1 : (0 : ℤ) ≤ round (x * 10 ^ n) := by
    rw [round_eq]
    exact Int.floor_nonneg.mpr (by positivity)
  have h2 : (0 : ℝ) ≤ (round (x * 10 ^ n) : ℤ) := by exact_mod_cast h1
  positivity

theorem pyRound_le_one (n : ℕ) {x : ℝ} (hx : x ≤ 1) : pyRound n x ≤ 1 := by
  unfold pyRound
  rw [div_le_one (by positivity)]
  have h1 : round (x * 10 ^ n) ≤ (10 : ℤ) ^ n := by
    rw [round_eq]
    have h3 : ⌊x * 10 ^ n + 1 / 2⌋ < (10 : ℤ) ^ n + 1 := by
      apply Int.floor_lt.mpr
      push_cast
      nlinarith [pow_pos (show (0 : ℝ) < 10 by norm_num) n]
    omega
  calc ((round (x * 10 ^ n) : ℤ) : ℝ) ≤ (((10 : ℤ) ^ n : ℤ) : ℝ) := by exact_mod_cast h1
    _ = 10 ^ n := by push_cast; ring

theorem volumeFactor_nonneg (r : MergedRow) : 0 ≤ volumeFactor r := by
  unfold volumeFactor
  have h : ∀ v : ℚ, 0 < v →
      (0 : ℝ) ≤ min 0.25 (Real.logb 10 ((v : ℝ) + 1) / 10) := by
    intro v hv
    have hv2 : (0 : ℝ) < (v : ℝ) := by exact_mod_cast hv
    refine le_min (by norm_num) (div_nonneg ?_ (by norm_num))
    exact Real.logb_nonneg (by norm_num) (by linarith)
  split_ifs with h1 h2 h2
  · exact add_nonneg (h _ h1) (h _ h2)
  · exact add_nonneg (h _ h1) (le_refl 0)
  · exact add_nonneg (le_refl 0) (h _ h2)
  · norm_num

theorem confidenceRaw_bounds (r : MergedRow) :
    0 ≤ confidenceRaw r ∧ confidenceRaw r ≤ 1 := by
  unfold confidenceRaw
  constructor
  · refine le_min (by norm_num) ?_
    have h1 := volumeFactor_nonneg r
    have h2 : (0 : ℝ) ≤ (sourceCount r : ℝ) := by positivity
    linarith
  · exact min_le_left _ _

/-! ## C4: the confidence formula -/

/-- A merged row present only in the current Search Console aggregate with all
metrics zero: `score_page` takes the canonical zero-result early return on it. -/
def zeroMetricsRow : MergedRow :=
  ⟨"https://e.com/z", some ⟨0, 0, 0, 0, 0⟩, none, none, none, none, none, none, none⟩

/-- C4 counterexample: the canonical zero result returns confidence `0`, while
`min(1, 0.35 + 0.2 * source_count + volume_factor)` evaluates to `0.35` —
so the stated formula does not describe every scored record. -/
theorem score_confidence_formula_counterexample :
    (score_page zeroMetricsRow defaultSettings).confidence ≠
      min 1 (0.35 + 0.2 * (sourceCount zeroMetricsRow : ℝ) +
        volumeFactor zeroMetricsRow) := by
  have himp : zeroMetricsRow.gscImpressions = 0 := rfl
  have hctr : zeroMetricsRow.gscCtr = 0 := rfl
  have hsess : zeroMetricsRow.ga4Sessions = 0 := rfl
  have hcr : zeroMetricsRow.ga4ConversionRate = 0 := rfl
  have hpos : zeroMetricsRow.gscPosition = 0 := rfl
  have hd1 : zeroMetricsRow.clicksDeltaPct = none := rfl
  have hd2 : zeroMetricsRow.sessionsDeltaPct = none := rfl
  have h1 : ctrRuleFires defaultSettings zeroMetricsRow = false := by
    simp [ctrRuleFires, himp, hctr, defaultSettings]
  have h2 : convRuleFires defaultSettings zeroMetricsRow = false := by
    simp [convRuleFires, hsess, hcr, defaultSettings]
  have h3 : scaleRuleFires defaultSettings zeroMetricsRow = false := by
    simp [scaleRuleFires, himp, hctr, defaultSettings]
  have h4 : posBonusFires zeroMetricsRow = false := by
    simp [posBonusFires, hpos]
  have hcats : rawCategories defaultSettings zeroMetricsRow = [] := by
    simp [rawCategories, h1, h2, h3, hd1, hd2, declineFires]
  have hscore : rawScore defaultSettings zeroMetricsRow = 0 := by
    simp [rawScore, h1, h2, h3, h4, hd1, hd2, declineScore, positionBonus]
  have hzero : score_page zeroMetricsRow defaultSettings = zeroScoreResult := by
    unfold score_page
    rw [if_pos ⟨hcats, by rw [hscore]⟩]
  rw [hzero]
  have hsc : sourceCount zeroMetricsRow = 0 := by
    simp [sourceCount, himp, hsess]
  have hvf : volumeFactor zeroMetricsRow = 0 := by
    simp [volumeFactor, himp, hsess]
  rw [hsc, hvf]
  norm_num [zeroScoreResult]

/-- C4 (amended): the returned confidence always lies in `[0, 1]`; whenever the
early canonical-zero return is not taken, it equals the formula
`min(1, 0.35 + 0.2 * source_count + volume_factor)` rounded to two decimals;
the canonical zero result returns confidence `0` instead. -/
theorem score_confidence_formula :
    (∀ r s, 0 ≤ (score_page r s).confidence ∧ (score_page r s).confidence ≤ 1) ∧
    (∀ r s, ¬(rawCategories s r = [] ∧ rawScore s r ≤ 0) →
      (score_page r s).confidence =
        pyRound 2 (min 1 (0.35 + 0.2 * (sourceCount r : ℝ) + volumeFactor r))) ∧
    (∀ r s, rawCategories s r = [] ∧ rawScore s r ≤ 0 →
      (score_page r s).confidence = 0) := by
  refine ⟨fun r s => ?_, fun r s h => ?_, fun r s h => ?_⟩
  · unfold score_page
    split_ifs with h
    · norm_num [zeroScoreResult]
    · have hb := confidenceRaw_bounds r
      exact ⟨pyRound_nonneg 2 hb.1, pyRound_le_one 2 hb.2⟩
  · unfold score_page
    rw [if_neg h]
    rfl
  · unfold score_page
    rw [if_pos h]
    rfl

/-- A merged row whose organic clicks halved against the previous period: the
click-decline rule fires on it. -/
def declineRow : MergedRow :=
  ⟨"https://e.com/d", some ⟨5, 100, 2, 1 / 20, 5⟩, none, some (10, 100), none,
   some (-(1 / 2)), some 0, none, none⟩

/-- Witness for C4: a row with a clicks decline (categories nonempty) has its
confidence given by the rounded formula. -/
theorem score_confidence_formula_witness :
    (score_page declineRow defaultSettings).confidence =
      pyRound 2 (min 1 (0.35 + 0.2 * (sourceCount declineRow : ℝ) +
        volumeFactor declineRow)) := by
  refine score_confidence_formula.2.1 _ defaultSettings ?_
  intro hcon
  have hcats := hcon.1
  have hd : declineRow.clicksDeltaPct = some (-(1 / 2)) := rfl
  have hdecl : declineFires declineRow.clicksDeltaPct = true := by
    rw [hd]
    unfold declineFires
    norm_num
  simp [rawCategories, hdecl] at hcats

/-! ## C10: the fallback "opportunity" category -/

theorem declineScore_eq_zero {delta : Option ℚ} (h : declineFires delta = false)
    (m : ℚ) : declineScore delta m = 0 := by
  cases delta with
  | none => rfl
  | some d =>
    simp only [declineFires, decide_eq_false_iff_not] at h
    simp [declineScore, h]

theorem positionBonus_pos {r : MergedRow} (h : posBonusFires r = true) :
    0 < positionBonus r := by
  unfold positionBonus
  rw [if_pos h]
  simp only [posBonusFires, decide_eq_true_eq] at h
  exact lt_min (by norm_num) (mul_pos (by linarith [h.1]) (by norm_num))

theorem pyRound_intCast (n : ℕ) (m : ℤ) : pyRound n ((m : ℤ) : ℝ) = m := by
  unfold pyRound
  have h : ((m : ℝ) * 10 ^ n) = ((m * 10 ^ n : ℤ) : ℝ) := by push_cast; ring
  rw [h, round_intCast]
  push_cast
  rw [mul_div_assoc, div_self (by positivity), mul_one]

/-- C10 (amended): when none of the five heuristic rules fires but the
position bonus does, the result has an empty category list, the position
reason, and score equal to the rounded position bonus; whenever that rounded
score is positive, `generate_action_items` emits exactly the one item and its
primary category is the fallback `"opportunity"`, which is none of the four
heuristic tags. -/
theorem fallback_category_opportunity (r : MergedRow) (s : Settings)
    (h1 : ctrRuleFires s r = false) (h2 : convRuleFires s r = false)
    (h3 : declineFires r.clicksDeltaPct = false)
    (h4 : declineFires r.sessionsDeltaPct = false)
    (h5 : scaleRuleFires s r = false) (h6 : posBonusFires r = true) :
    (score_page r s).categories = [] ∧
    (score_page r s).reasons = [posReason] ∧
    (score_page r s).score = pyRound 2 ((positionBonus r : ℚ) : ℝ) ∧
    (0 < (score_page r s).score →
      (generate_action_items [r] s none).map ActionItem.category =
        [opportunityStr]) ∧
    opportunityStr ∉ [ctrTag, convTag, refreshTag, scaleTag] := by
  have hcats : rawCategories s r = [] := by
    simp [rawCategories, h1, h2, h3, h4, h5]
  have hreasons : rawReasons s r = [posReason] := by
    simp [rawReasons, h1, h2, h3, h4, h5, h6]
  have hscore : rawScore s r = ((positionBonus r : ℚ) : ℝ) := by
    simp [rawScore, h1, h2, h5, declineScore_eq_zero h3, declineScore_eq_zero h4]
  have hposb : (0 : ℝ) < ((positionBonus r : ℚ) : ℝ) := by
    exact_mod_cast positionBonus_pos h6
  have hne : ¬(rawCategories s r = [] ∧ rawScore s r ≤ 0) := by
    rintro ⟨-, hle⟩
    rw [hscore] at hle
    linarith
  have hc : (score_page r s).categories = [] := by
    unfold score_page
    rw [if_neg hne]
    simp [hcats]
  have hr : (score_page r s).reasons = [posReason] := by
    unfold score_page
    rw [if_neg hne]
    simp only [hreasons]
    rfl
  have hs2 : (score_page r s).score = pyRound 2 ((positionBonus r : ℚ) : ℝ) := by
    unfold score_page
    rw [if_neg hne]
    simp [hscore]
  refine ⟨hc, hr, hs2, fun hposScore => ?_, by decide⟩
  unfold generate_action_items
  simp only [List.filterMap_cons, List.filterMap_nil]
  rw [if_neg (not_le.mpr hposScore)]
  have hsort : List.insertionSort itemGE [mkActionItem r (score_page r s)] =
      [mkActionItem r (score_page r s)] := rfl
  rw [hsort]
  have hlim : ([mkActionItem r (score_page r s)]).length ≤
      (max 1 ((none : Option ℤ).getD s.default_max_action_items)).toNat := by
    have h1' : (1 : ℤ) ≤ max 1 s.default_max_action_items :=
      le_max_left _ _
    simp only [Option.getD_none, List.length_cons, List.length_nil]
    omega
  rw [List.take_of_length_le hlim]
  simp [mkActionItem, hc, opportunityStr]

/-- A merged row with average position 8.001 and one impression: the position
bonus fires with a bonus of `0.0015`, which rounds to a zero score. -/
def nearEightRow : MergedRow :=
  ⟨"https://e.com/c", some ⟨0, 1, 1, 0, 8001 / 1000⟩, none, none, none, none,
   none, none, none⟩

/-- C10 counterexample: on a record with position `8.001 > 8`, one impression
and no heuristic rule firing, `score_page` returns score `0` (the bonus
`0.0015` rounds to two decimals as `0`), so the claimed positive score is not
returned and no action item is emitted. -/
theorem fallback_category_counterexample :
    posBonusFires nearEightRow = true ∧
    rawCategories defaultSettings nearEightRow = [] ∧
    (score_page nearEightRow defaultSettings).score = 0 ∧
    generate_action_items [nearEightRow] defaultSettings none = [] := by
  have himp : nearEightRow.gscImpressions = 1 := rfl
  have hctr : nearEightRow.gscCtr = 0 := rfl
  have hsess : nearEightRow.ga4Sessions = 0 := rfl
  have hcr : nearEightRow.ga4ConversionRate = 0 := rfl
  have hpos : nearEightRow.gscPosition = 8001 / 1000 := rfl
  have hd1 : nearEightRow.clicksDeltaPct = none := rfl
  have hd2 : nearEightRow.sessionsDeltaPct = none := rfl
  have h1 : ctrRuleFires defaultSettings nearEightRow = false := by
    simp [ctrRuleFires, himp, defaultSettings]
  have h2 : convRuleFires defaultSettings nearEightRow = false := by
    simp [convRuleFires, hsess, defaultSettings]
  have h5 : scaleRuleFires defaultSettings nearEightRow = false := by
    simp [scaleRuleFires, himp, defaultSettings]
  have h6 : posBonusFires nearEightRow = true := by
    simp only [posBonusFires, hpos, himp, decide_eq_true_eq]
    norm_num
  have hcats : rawCategories defaultSettings nearEightRow = [] := by
    simp [rawCategories, h1, h2, h5, hd1, hd2, declineFires]
  have hbonus : positionBonus nearEightRow = 3 / 2000 := by
    unfold positionBonus
    rw [if_pos h6, hpos]
    rw [min_eq_right (by norm_num)]
    norm_num
  have hscore : rawScore defaultSettings nearEightRow = ((3 / 2000 : ℚ) : ℝ) := by
    simp [rawScore, h1, h2, h5, hd1, hd2, declineScore, hbonus]
  have hne : ¬(rawCategories defaultSettings nearEightRow = [] ∧
      rawScore defaultSettings nearEightRow ≤ 0) := by
    rintro ⟨-, hle⟩
    rw [hscore] at hle
    have : ((3 / 2000 : ℚ) : ℝ) > 0 := by norm_num
    linarith
  have hround : pyRound 2 ((3 / 2000 : ℚ) : ℝ) = 0 := by
    unfold pyRound
    have harg : (((3 / 2000 : ℚ) : ℝ) * 10 ^ 2) = 3 / 20 := by
      push_cast
      ring
    rw [harg, round_eq]
    have : ⌊(3 / 20 : ℝ) + 1 / 2⌋ = 0 := by
      rw [Int.floor_eq_zero_iff]
      constructor <;> norm_num
    rw [this]
    norm_num
  have hsp : (score_page nearEightRow defaultSettings).score = 0 := by
    unfold score_page
    rw [if_neg hne]
    simp only [hscore]
    exact hround
  refine ⟨h6, hcats, hsp, ?_⟩
  unfold generate_action_items
  simp only [List.filterMap_cons, List.filterMap_nil]
  rw [if_pos (le_of_eq hsp)]
  rfl

/-- A merged row with average position 10 and one impression: only the
position bonus fires, with bonus `3`. -/
def positionTenRow : MergedRow :=
  ⟨"https://e.com/t", some ⟨0, 1, 1, 0, 10⟩, none, none, none, none, none,
   none, none⟩

/-- Witness for C10 at a concrete row (position 10, one impression): empty
categories, and the single emitted action item carries the fallback category. -/
theorem fallback_category_opportunity_witness :
    (score_page positionTenRow defaultSettings).categories = [] ∧
    (generate_action_items [positionTenRow] defaultSettings none).map
      ActionItem.category = [opportunityStr] := by
  have himp : positionTenRow.gscImpressions = 1 := rfl
  have hsess : positionTenRow.ga4Sessions = 0 := rfl
  have hpos : positionTenRow.gscPosition = 10 := rfl
  have hd1 : positionTenRow.clicksDeltaPct = none := rfl
  have hd2 : positionTenRow.sessionsDeltaPct = none := rfl
  have h1 : ctrRuleFires defaultSettings positionTenRow = false := by
    simp [ctrRuleFires, himp, defaultSettings]
  have h2 : convRuleFires defaultSettings positionTenRow = false := by
    simp [convRuleFires, hsess, defaultSettings]
  have h3 : declineFires positionTenRow.clicksDeltaPct = false := by
    rw [hd1]
    rfl
  have h4 : declineFires positionTenRow.sessionsDeltaPct = false := by
    rw [hd2]
    rfl
  have h5 : scaleRuleFires defaultSettings positionTenRow = false := by
    simp [scaleRuleFires, himp, defaultSettings]
  have h6 : posBonusFires positionTenRow = true := by
    simp only [posBonusFires, hpos, himp, decide_eq_true_eq]
    norm_num
  have H := fallback_category_opportunity positionTenRow defaultSettings
    h1 h2 h3 h4 h5 h6
  refine ⟨H.1, H.2.2.2.1 ?_⟩
  rw [H.2.2.1]
  have hbonus : positionBonus positionTenRow = 3 := by
    unfold positionBonus
    rw [if_pos h6, hpos]
    rw [min_eq_right (by norm_num)]
    norm_num
  rw [hbonus]
  have hcast : ((3 : ℚ) : ℝ) = ((3 : ℤ) : ℝ) := by norm_num
  rw [hcast, pyRound_intCast]
  norm_num

/-! ## C6: action-item filtering, ordering and truncation -/

instance : IsTotal ActionItem itemGE where
  total i j := by
    rcases lt_trichotomy j.score i.score with h | h | h
    · exact Or.inl (Or.inl h)
    · rcases le_total j.confidence i.confidence with hc | hc
      · exact Or.inl (Or.inr ⟨h, hc⟩)
      · exact Or.inr (Or.inr ⟨h.symm, hc⟩)
    · exact Or.inr (Or.inl h)

instance : IsTrans ActionItem itemGE where
  trans i j k h1 h2 := by
    rcases h1 with h1 | ⟨h1e, h1c⟩ <;> rcases h2 with h2 | ⟨h2e, h2c⟩
    · exact Or.inl (h2.trans h1)
    · exact Or.inl (lt_of_le_of_lt (le_of_eq h2e) h1)
    · exact Or.inl (lt_of_lt_of_le h2 (le_of_eq h1e))
    · exact Or.inr ⟨h2e.trans h1e, h2c.trans h1c⟩

/-- C6: `generate_action_items` output is sorted under the descending
`(score, confidence)` order (confidence breaking score ties), contains only
items with positive score, and has length `min(max(1, limit), |kept items|)` —
i.e. the surviving items truncated to the configured maximum with a floor of
one. -/
theorem action_items_ordering (pages : List MergedRow) (s : Settings)
    (m : Option ℤ) :
    (generate_action_items pages s m).Pairwise itemGE ∧
    (∀ i ∈ generate_action_items pages s m, 0 < i.score) ∧
    (generate_action_items pages s m).length =
      min (max 1 (m.getD s.default_max_action_items)).toNat
        (pages.filterMap (fun p =>
          if (score_page p s).score ≤ 0 then none
          else some (mkActionItem p (score_page p s)))).length ∧
    (∀ i j : ActionItem, j.score < i.score → itemGE i j) ∧
    (∀ i j : ActionItem, j.score = i.score → j.confidence ≤ i.confidence →
      itemGE i j) := by
  refine ⟨?_, ?_, ?_, fun i j h => Or.inl h, fun i j h1 h2 => Or.inr ⟨h1, h2⟩⟩
  · unfold generate_action_items
    exact List.Pairwise.sublist (List.take_sublist _ _)
      (List.sorted_insertionSort itemGE _)
  · intro i hi
    unfold generate_action_items at hi
    have hi2 := (List.take_sublist _ _).mem hi
    rw [List.mem_insertionSort] at hi2
    rw [List.mem_filterMap] at hi2
    obtain ⟨p, _, hp⟩ := hi2
    by_cases hle : (score_page p s).score ≤ 0
    · rw [if_pos hle] at hp
      exact absurd hp (by simp)
    · rw [if_neg hle] at hp
      have : i.score = (score_page p s).score := by
        rw [← Option.some_inj.mp hp]
        rfl
      rw [this]
      exact not_le.mp hle
  · unfold generate_action_items
    rw [List.length_take, (List.perm_insertionSort itemGE _).length_eq]

/-- Witness for C6 at concrete inputs: the generated list for a singleton page
set is sorted, positive-score only, and its comparator ranks confidence 0.9
before 0.6 at equal scores. -/
theorem action_items_ordering_witness :
    (generate_action_items [declineRow] defaultSettings none).Pairwise itemGE ∧
    (∀ i ∈ generate_action_items [declineRow] defaultSettings none,
      0 < i.score) ∧
    (∀ i j : ActionItem, j.score = i.score → j.confidence ≤ i.confidence →
      itemGE i j) :=
  ⟨(action_items_ordering [declineRow] defaultSettings none).1,
   (action_items_ordering [declineRow] defaultSettings none).2.1,
   (action_items_ordering [declineRow] defaultSettings none).2.2.2.2⟩

/-! ## C7 (amended): canonical URLs are fixed points of normalization -/

theorem splitFirst_eq_self (p : Char → Bool) :
    ∀ xs : List Char, (∀ c ∈ xs, p c = false) → splitFirst p xs = (xs, none) := by
  intro xs
  induction xs with
  | nil => intro _; rfl
  | cons c t ih =>
    intro h
    have hc : p c = false := h c (List.mem_cons_self c t)
    simp [splitFirst, hc, ih (fun x hx => h x (List.mem_cons_of_mem c hx))]

theorem splitFirst_append (p : Char → Bool) (d : Char) (ys : List Char)
    (hd : p d = true) :
    ∀ xs : List Char, (∀ c ∈ xs, p c = false) →
      splitFirst p (xs ++ d :: ys) = (xs, some ys) := by
  intro xs
  induction xs with
  | nil => intro _; simp [splitFirst, hd]
  | cons c t ih =>
    intro h
    have hc : p c = false := h c (List.mem_cons_self c t)
    simp [splitFirst, hc, ih (fun x hx => h x (List.mem_cons_of_mem c hx))]

theorem takeWhile_middle (p : Char → Bool) (d : Char) (ys : List Char)
    (hd : p d = false) :
    ∀ xs : List Char, (∀ c ∈ xs, p c = true) →
      ((xs ++ d :: ys).takeWhile p = xs ∧ (xs ++ d :: ys).dropWhile p = d :: ys) := by
  intro xs
  induction xs with
  | nil => intro _; simp [List.takeWhile_cons, List.dropWhile_cons, hd]
  | cons c t ih =>
    intro h
    have hc : p c = true := h c (List.mem_cons_self c t)
    have iht := ih (fun x hx => h x (List.mem_cons_of_mem c hx))
    simp [List.takeWhile_cons, List.dropWhile_cons, hc, iht.1, iht.2]

theorem dropWhile_eq_self (p : Char → Bool) :
    ∀ l : List Char, (∀ c ∈ l, p c = false) → l.dropWhile p = l := by
  intro l
  induction l with
  | nil => intro _; rfl
  | cons c t _ =>
    intro h
    simp [List.dropWhile_cons, h c (List.mem_cons_self c t)]

theorem not_ws_of_gt_space {c : Char} (h : ' ' < c) : c.isWhitespace = false := by
  cases hb : c.isWhitespace with
  | false => rfl
  | true =>
    exfalso
    have := hb
    simp only [Char.isWhitespace] at this
    rcases Bool.or_eq_true_iff.mp this with h1 | h1
    · rcases Bool.or_eq_true_iff.mp h1 with h2 | h2
      · rcases Bool.or_eq_true_iff.mp h2 with h3 | h3
        · rw [decide_eq_true_eq] at h3
          subst h3
          exact absurd h (by decide)
        · rw [decide_eq_true_eq] at h3
          subst h3
          exact absurd h (by decide)
      · rw [decide_eq_true_eq] at h2
        subst h2
        exact absurd h (by decide)
    · rw [decide_eq_true_eq] at h1
      subst h1
      exact absurd h (by decide)

theorem not_unsafe_of_gt_space {c : Char} (h : ' ' < c) : unsafeUrlChar c = false := by
  cases hb : unsafeUrlChar c with
  | false => rfl
  | true =>
    exfalso
    have := hb
    simp only [unsafeUrlChar] at this
    rcases Bool.or_eq_true_iff.mp this with h1 | h1
    · rcases Bool.or_eq_true_iff.mp h1 with h2 | h2
      · rw [beq_iff_eq] at h2
        subst h2
        exact absurd h (by decide)
      · rw [beq_iff_eq] at h2
        subst h2
        exact absurd h (by decide)
    · rw [beq_iff_eq] at h1
      subst h1
      exact absurd h (by decide)

theorem pyStrip_eq_self {cs : List Char} (h : ∀ c ∈ cs, ' ' < c) :
    pyStrip cs = cs := by
  unfold pyStrip
  rw [dropWhile_eq_self _ _ (fun c hc => not_ws_of_gt_space (h c hc)),
    dropWhile_eq_self _ _
      (fun c hc => not_ws_of_gt_space (h c (List.mem_reverse.mp hc))),
    List.reverse_reverse]

theorem stripControls_eq_self {cs : List Char} (h : ∀ c ∈ cs, ' ' < c) :
    stripControls cs = cs := by
  unfold stripControls
  rw [dropWhile_eq_self _ _ (fun c hc => decide_eq_false (not_le.mpr (h c hc))),
    dropWhile_eq_self _ _
      (fun c hc => decide_eq_false (not_le.mpr (h c (List.mem_reverse.mp hc)))),
    List.reverse_reverse]

theorem scheme_no_colon {c : Char} (h : schemeTailChar c = true) :
    (c == ':') = false := by
  cases hb : c == ':' with
  | false => rfl
  | true =>
    exfalso
    rw [beq_iff_eq] at hb
    subst hb
    exact absurd h (by decide)

/-- A canonical absolute URL assembled from components:
`scheme://host` + path + optional `?query` + optional `#fragment`. -/
def assembleUrl (scheme host path query fragment : List Char) : List Char :=
  scheme ++ ':' :: '/' :: '/' ::
    (host ++ path ++ (if query = [] then [] else '?' :: query) ++
      (if fragment = [] then [] else '#' :: fragment))


theorem urlsplit_shape (scheme host Y : List Char)
    (hs1 : scheme ≠ [])
    (hs2 : (scheme.headD 'a').isAlpha = true)
    (hs3 : ∀ c ∈ scheme, schemeTailChar c = true)
    (hs4 : scheme.map Char.toLower = scheme)
    (hh3 : ∀ c ∈ host, netlocChar c = true)
    (hws : ∀ c ∈ scheme ++ ':' :: '/' :: '/' :: (host ++ '/' :: Y), ' ' < c) :
    urlsplitChars (scheme ++ ':' :: '/' :: '/' :: (host ++ '/' :: Y)) =
      ⟨scheme, host,
       (splitFirst (· == '?') (splitFirst (· == '#') ('/' :: Y)).1).1,
       ((splitFirst (· == '?') (splitFirst (· == '#') ('/' :: Y)).1).2).getD [],
       ((splitFirst (· == '#') ('/' :: Y)).2).getD []⟩ := by
  have estrip : stripControls (scheme ++ ':' :: '/' :: '/' :: (host ++ '/' :: Y)) =
      scheme ++ ':' :: '/' :: '/' :: (host ++ '/' :: Y) :=
    stripControls_eq_self hws
  have e2 : (scheme ++ ':' :: '/' :: '/' :: (host ++ '/' :: Y)).filter
      (fun c => !(unsafeUrlChar c)) =
      scheme ++ ':' :: '/' :: '/' :: (host ++ '/' :: Y) := by
    refine List.filter_eq_self.mpr (fun c hc => ?_)
    rw [not_unsafe_of_gt_space (hws c hc)]
    rfl
  have e3 : splitFirst (· == ':') (scheme ++ ':' :: '/' :: '/' :: (host ++ '/' :: Y)) =
      (scheme, some ('/' :: '/' :: (host ++ '/' :: Y))) :=
    splitFirst_append _ ':' _ rfl scheme (fun c hc => scheme_no_colon (hs3 c hc))
  have etake := takeWhile_middle netlocChar '/' Y (by decide) host hh3
  simp only [urlsplitChars, estrip, e2, e3]
  rw [if_pos ⟨hs1, hs2, List.all_eq_true.mpr hs3⟩]
  simp only [hs4]
  rw [show List.take 2 ('/' :: '/' :: (host ++ '/' :: Y)) = ['/', '/'] from rfl,
      show List.drop 2 ('/' :: '/' :: (host ++ '/' :: Y)) = host ++ '/' :: Y from rfl]
  rw [if_pos rfl]
  simp only [etake.1, etake.2]

theorem urlsplit_assemble (scheme host path query fragment : List Char)
    (hs1 : scheme ≠ [])
    (hs2 : (scheme.headD 'a').isAlpha = true)
    (hs3 : ∀ c ∈ scheme, schemeTailChar c = true)
    (hs4 : scheme.map Char.toLower = scheme)
    (hh3 : ∀ c ∈ host, netlocChar c = true)
    (hp1 : path.head? = some '/')
    (hp3q : ∀ c ∈ path, (c == '?') = false)
    (hp3f : ∀ c ∈ path, (c == '#') = false)
    (hq1 : ∀ c ∈ query, (c == '#') = false)
    (hws : ∀ c ∈ assembleUrl scheme host path query fragment, ' ' < c) :
    urlsplitChars (assembleUrl scheme host path query fragment) =
      ⟨scheme, host, path, query, fragment⟩ := by
  obtain ⟨pt, rfl⟩ : ∃ pt, path = '/' :: pt := by
    cases path with
    | nil => simp at hp1
    | cons a t =>
      refine ⟨t, ?_⟩
      have ha : a = '/' := Option.some.inj hp1
      rw [ha]
  rcases eq_or_ne query [] with hq | hq <;> rcases eq_or_ne fragment [] with hf | hf
  · subst hq hf
    have hA : assembleUrl scheme host ('/' :: pt) [] [] =
        scheme ++ ':' :: '/' :: '/' :: (host ++ '/' :: pt) := by
      simp [assembleUrl]
    rw [hA] at hws ⊢
    rw [urlsplit_shape scheme host pt hs1 hs2 hs3 hs4 hh3 hws]
    rw [splitFirst_eq_self _ _ hp3f]
    rw [splitFirst_eq_self _ _ hp3q]
    rfl
  · subst hq
    have hA : assembleUrl scheme host ('/' :: pt) [] fragment =
        scheme ++ ':' :: '/' :: '/' :: (host ++ '/' :: (pt ++ '#' :: fragment)) := by
      simp [assembleUrl, hf]
    rw [hA] at hws ⊢
    rw [urlsplit_shape scheme host (pt ++ '#' :: fragment) hs1 hs2 hs3 hs4 hh3 hws]
    rw [show ('/' :: (pt ++ '#' :: fragment)) = ('/' :: pt) ++ '#' :: fragment from rfl]
    rw [splitFirst_append _ '#' fragment rfl _ hp3f]
    rw [splitFirst_eq_self _ _ hp3q]
    rfl
  · subst hf
    have hA : assembleUrl scheme host ('/' :: pt) query [] =
        scheme ++ ':' :: '/' :: '/' :: (host ++ '/' :: (pt ++ '?' :: query)) := by
      simp [assembleUrl, hq]
    rw [hA] at hws ⊢
    rw [urlsplit_shape scheme host (pt ++ '?' :: query) hs1 hs2 hs3 hs4 hh3 hws]
    have hnof : ∀ c ∈ ('/' :: pt) ++ '?' :: query, (c == '#') = false := by
      intro c hc
      rcases List.mem_append.mp hc with hc2 | hc2
      · exact hp3f c hc2
      · rcases List.mem_cons.mp hc2 with rfl | hc3
        · decide
        · exact hq1 c hc3
    rw [show ('/' :: (pt ++ '?' :: query)) = ('/' :: pt) ++ '?' :: query from rfl]
    rw [splitFirst_eq_self _ _ hnof]
    rw [splitFirst_append _ '?' query rfl _ hp3q]
    rfl
  · have hA : assembleUrl scheme host ('/' :: pt) query fragment =
        scheme ++ ':' :: '/' :: '/' ::
          (host ++ '/' :: (pt ++ '?' :: (query ++ '#' :: fragment))) := by
      simp [assembleUrl, hq, hf]
    rw [hA] at hws ⊢
    rw [urlsplit_shape scheme host (pt ++ '?' :: (query ++ '#' :: fragment))
      hs1 hs2 hs3 hs4 hh3 hws]
    have hnof : ∀ c ∈ ('/' :: pt) ++ '?' :: query, (c == '#') = false := by
      intro c hc
      rcases List.mem_append.mp hc with hc2 | hc2
      · exact hp3f c hc2
      · rcases List.mem_cons.mp hc2 with rfl | hc3
        · decide
        · exact hq1 c hc3
    have hsh : ('/' :: (pt ++ '?' :: (query ++ '#' :: fragment))) =
        (('/' :: pt) ++ '?' :: query) ++ '#' :: fragment := by
      simp [List.append_assoc]
    rw [hsh]
    rw [splitFirst_append _ '#' fragment rfl _ hnof]
    rw [splitFirst_append _ '?' query rfl _ hp3q]
    rfl

theorem urlunsplit_assemble (scheme host path query fragment : List Char)
    (hs1 : scheme ≠ []) (hh1 : host ≠ []) (hp1 : path.head? = some '/') :
    urlunsplitChars ⟨scheme, host, path, query, fragment⟩ =
      assembleUrl scheme host path query fragment := by
  obtain ⟨pt, rfl⟩ : ∃ pt, path = '/' :: pt := by
    cases path with
    | nil => simp at hp1
    | cons a t =>
      refine ⟨t, ?_⟩
      have ha : a = '/' := Option.some.inj hp1
      rw [ha]
  rcases eq_or_ne query [] with hq | hq <;> rcases eq_or_ne fragment [] with hf | hf <;>
    simp [urlunsplitChars, assembleUrl, hq, hf, hh1, hs1, List.append_assoc]

theorem normChars_fixed (dq df rw2 : Bool) (scheme host path query fragment : List Char)
    (hs1 : scheme ≠ [])
    (hs2 : (scheme.headD 'a').isAlpha = true)
    (hs3 : ∀ c ∈ scheme, schemeTailChar c = true)
    (hs4 : scheme.map Char.toLower = scheme)
    (hh1 : host ≠ [])
    (hh2 : host.map Char.toLower = host)
    (hh3 : ∀ c ∈ host, netlocChar c = true)
    (hh4 : rw2 = true → host.take 4 ≠ ("www.").toList)
    (hp1 : path.head? = some '/')
    (hp2 : path = ['/'] ∨ path.getLast? ≠ some '/')
    (hp3q : ∀ c ∈ path, (c == '?') = false)
    (hp3f : ∀ c ∈ path, (c == '#') = false)
    (hq1 : ∀ c ∈ query, (c == '#') = false)
    (hq2 : dq = true → query = [])
    (hf2 : df = true → fragment = [])
    (hws : ∀ c ∈ assembleUrl scheme host path query fragment, ' ' < c) :
    normChars (assembleUrl scheme host path query fragment) none dq df rw2 =
      assembleUrl scheme host path query fragment := by
  have hstrip : pyStrip (assembleUrl scheme host path query fragment) =
      assembleUrl scheme host path query fragment := pyStrip_eq_self hws
  have hne : assembleUrl scheme host path query fragment ≠ [] := by
    cases scheme with
    | nil => exact absurd rfl hs1
    | cons a t => simp [assembleUrl]
  have hsplit := urlsplit_assemble scheme host path query fragment
    hs1 hs2 hs3 hs4 hh3 hp1 hp3q hp3f hq1 hws
  have hpne : path ≠ [] := by
    cases path with
    | nil => simp at hp1
    | cons a t => simp
  have hscheme_if : (if scheme.map Char.toLower = [] then ("https").toList
      else scheme.map Char.toLower) = scheme := by
    rw [hs4, if_neg hs1]
  have hwww_if : (if rw2 = true ∧ host.take 4 = ("www.").toList
      then host.drop 4 else host) = host := by
    refine if_neg ?_
    rintro ⟨hrw, htk⟩
    exact hh4 hrw htk
  have hpath_if1 : (if path = [] then ['/'] else path) = path := if_neg hpne
  have htrail_if : (if 1 < path.length ∧ path.getLast? = some '/'
      then path.dropLast else path) = path := by
    refine if_neg ?_
    rintro ⟨hlen, hlast⟩
    rcases hp2 with h | h
    · rw [h] at hlen
      simp at hlen
    · exact h hlast
  have hq_if : (if dq = true then [] else query) = query := by
    cases dq with
    | false => rfl
    | true => rw [if_pos rfl, hq2 rfl]
  have hf_if : (if df = true then [] else fragment) = fragment := by
    cases df with
    | false => rfl
    | true => rw [if_pos rfl, hf2 rfl]
  have huns := urlunsplit_assemble scheme host path query fragment hs1 hh1 hp1
  have hcond : ¬(¬startsHttp (assembleUrl scheme host path query fragment) = true ∧
      (none : Option String).isSome = true) := by simp
  simp only [normChars, hstrip]
  rw [if_neg hne]
  rw [if_neg hcond]
  rw [hsplit]
  simp only [hscheme_if, hh2, hwww_if, hpath_if1, htrail_if, hq_if, hf_if]
  rw [if_neg hh1]
  exact huns

/-- C7 (amended): normalization is idempotent on inputs whose normalization is
a canonical absolute URL — lowercase valid scheme, nonempty lowercase host
free of `/?#` (and not `www.`-prefixed when `remove_www` is on), a path
starting with `/`, not ending with `/` unless it is exactly `/` and free of
`?`/`#`, a `#`-free query, query/fragment empty when the corresponding flag
drops them, no whitespace or control characters, and no base URL.  Without
these restrictions idempotence fails (see the counterexample). -/
theorem normalize_url_idempotent_on_canonical (u : String) (dq df rw2 : Bool)
    (scheme host path query fragment : List Char)
    (hs1 : scheme ≠ [])
    (hs2 : (scheme.headD 'a').isAlpha = true)
    (hs3 : ∀ c ∈ scheme, schemeTailChar c = true)
    (hs4 : scheme.map Char.toLower = scheme)
    (hh1 : host ≠ [])
    (hh2 : host.map Char.toLower = host)
    (hh3 : ∀ c ∈ host, netlocChar c = true)
    (hh4 : rw2 = true → host.take 4 ≠ ("www.").toList)
    (hp1 : path.head? = some '/')
    (hp2 : path = ['/'] ∨ path.getLast? ≠ some '/')
    (hp3q : ∀ c ∈ path, (c == '?') = false)
    (hp3f : ∀ c ∈ path, (c == '#') = false)
    (hq1 : ∀ c ∈ query, (c == '#') = false)
    (hq2 : dq = true → query = [])
    (hf2 : df = true → fragment = [])
    (hws : ∀ c ∈ assembleUrl scheme host path query fragment, ' ' < c)
    (heq : normalize_url u none dq df rw2 =
      (assembleUrl scheme host path query fragment).asString) :
    normalize_url (normalize_url u none dq df rw2) none dq df rw2 =
      normalize_url u none dq df rw2 := by
  rw [heq]
  unfold normalize_url
  rw [List.toList_asString]
  rw [normChars_fixed dq df rw2 scheme host path query fragment hs1 hs2 hs3 hs4
    hh1 hh2 hh3 hh4 hp1 hp2 hp3q hp3f hq1 hq2 hf2 hws]

/-- Witness for C7 (amended): `"HTTPS://Example.com/Foo/"` normalizes to the
canonical `"https://example.com/Foo"`, a fixed point, so a second
normalization changes nothing. -/
theorem normalize_url_idempotent_on_canonical_witness :
    normalize_url (normalize_url ("HTTPS://Example.com/Foo/") none true true false)
        none true true false =
      normalize_url ("HTTPS://Example.com/Foo/") none true true false :=
  normalize_url_idempotent_on_canonical ("HTTPS://Example.com/Foo/") true true false
    (("https").toList) (("example.com").toList) (("/Foo").toList) [] []
    (by decide) (by decide) (by decide) (by decide) (by decide) (by decide)
    (by decide) (by decide) (by decide) (by decide) (by decide) (by decide)
    (by decide) (by decide) (by decide) (by decide) (by decide)
